import Mathlib

/-!
Shallow embedding of the suitop checkpoint-signature accounting engine.

The definitions below are translated from the Go sources:
  * internal/checkpoint/stats.go      (ValidatorStats, StatsManager and its methods)
  * internal/checkpoint/stats.go      (IsValidatorSigned, the bitmap matcher)
  * internal/checkpoint/processor.go  (Processor.Run, one iteration per checkpoint)
  * internal/validator/model.go       (ValidatorInfo)
  * the validator Loader (LoadEpochValidatorData) and the JSON-RPC helpers
    GetCommitteeInfo / GetLatestSuiSystemState
  * internal/grpc/subscriber.go       (SubscribeToCheckpoints)

Machine integers: Go `uint64`/`uint32` values are modelled as `Nat` with an
explicit `% 2^32` where the Go code performs a narrowing conversion to
`uint32`; Go `int` fields that may be negative (`BitmapIndex`) are `Int`.
Go maps keyed by strings are modelled as `String → Option _` functions,
with later insertions overwriting earlier ones.
-/

/-- Modulus of Go's `uint32` type, used by the narrowing conversions
`uint32(validatorIndex)` and `uint32(committeeSize)` in the source. -/
def UINT32_MOD : Nat := 2 ^ 32

/-- internal/checkpoint/stats.go: per-validator uptime counters. -/
structure ValidatorStats where
  attestedCount : Nat
  signedCurrent : Bool
deriving Repr, DecidableEq

/-- internal/validator/model.go: one committee member for a given epoch.
`suiAddress` is the stable ledger key; `bitmapIndex` is a Go `int`. -/
structure ValidatorInfo where
  name : String
  suiAddress : String
  protocolPubkeyBytes : String
  bitmapIndex : Int
  votingPower : Int
deriving Repr, DecidableEq

/-- internal/checkpoint/stats.go: the StatsManager.  The Go
`map[string]ValidatorStats` is modelled as a lookup function. -/
structure StatsManager where
  validatorStats : String → Option ValidatorStats
  totalCheckpointsWithSig : Nat

/-- stats.go NewStatsManager: empty map, zero total. -/
def StatsManager.new : StatsManager :=
  { validatorStats := fun _ => none, totalCheckpointsWithSig := 0 }

/-- Write one key of the stats map (the Go assignment
`sm.validatorStats[k] = v`, generalised to allow writing `none`). -/
def StatsManager.setStat (sm : StatsManager) (k : String)
    (v : Option ValidatorStats) : StatsManager :=
  { sm with validatorStats := fun a => if a = k then v else sm.validatorStats a }

/-- stats.go InitializeCommitteeStats: insert a zero counter for every
committee member not already present; existing entries are untouched. -/
def StatsManager.initializeCommitteeStats (sm : StatsManager)
    (committee : List ValidatorInfo) : StatsManager :=
  committee.foldl
    (fun m v =>
      match m.validatorStats v.suiAddress with
      | some _ => m
      | none => m.setStat v.suiAddress (some ⟨0, false⟩))
    sm

/-- stats.go ResetSignedCurrent: clear the SignedCurrent flag of every
committee member that has an entry in the map. -/
def StatsManager.resetSignedCurrent (sm : StatsManager)
    (committee : List ValidatorInfo) : StatsManager :=
  committee.foldl
    (fun m v =>
      match m.validatorStats v.suiAddress with
      | some st => m.setStat v.suiAddress (some { st with signedCurrent := false })
      | none => m)
    sm

/-- stats.go UpdateValidatorSigned: mark the key as having signed the
current checkpoint and bump its attested count; no-op on unknown keys. -/
def StatsManager.updateValidatorSigned (sm : StatsManager)
    (suiAddress : String) : StatsManager :=
  match sm.validatorStats suiAddress with
  | some st =>
      sm.setStat suiAddress (some ⟨st.attestedCount + 1, true⟩)
  | none => sm

/-- stats.go IncrementTotalCheckpointsWithSig. -/
def StatsManager.incrementTotalCheckpointsWithSig (sm : StatsManager) : StatsManager :=
  { sm with totalCheckpointsWithSig := sm.totalCheckpointsWithSig + 1 }

/-- stats.go IsValidatorSigned (the Bitmap Matcher): negative indices are
never signed; otherwise the Go code compares `uint32(validatorIndex)`
against each `uint32` bitmap entry, so the index is reduced `% 2^32`. -/
def IsValidatorSigned (bitmap : List Nat) (validatorIndex : Int) : Bool :=
  if validatorIndex < 0 then
    false
  else
    let targetIndex := validatorIndex.toNat % UINT32_MOD
    bitmap.any (fun indexInBitmap => indexInBitmap = targetIndex)

/-- The epoch and signer bitmap carried by a checkpoint's aggregated
signature (`GetSignature().GetEpoch()` / `GetBitmap()`); bitmap entries
are Go `uint32` values. -/
structure SigData where
  epoch : Nat
  bitmap : List Nat
deriving Repr, DecidableEq

/-- One inbound checkpoint from the subscription stream; `signature` is
`none` when the checkpoint carries no aggregated-signature data. -/
structure Checkpoint where
  sequenceNumber : Nat
  signature : Option SigData
deriving Repr, DecidableEq

/-- The processor-owned state mutated by Processor.Run: current epoch,
current committee, and the shared StatsManager. -/
structure ProcState where
  currentEpoch : Nat
  committee : List ValidatorInfo
  stats : StatsManager

/-- The committee loader (`valLoader.LoadEpochValidatorData`), abstracted
as a function from the requested epoch to either an error or the new
committee paired with the epoch actually loaded. -/
def CommitteeLoader : Type := Nat → Except String (List ValidatorInfo × Nat)

/-- The diagnostic carried by the `log.Panicf` fatal path of
Processor.Run: the offending bitmap index, the committee size, the
current epoch and checkpoint sequence named in the message, together
with the processor state at the moment of the panic. -/
structure PanicInfo where
  idx : Nat
  committeeSize : Nat
  epoch : Nat
  checkpointSeq : Nat
  stateAtPanic : ProcState

/-- processor.go lines 76-99: epoch change detection and committee
reload.  `currentEpoch` is set to the event epoch before the load is
attempted; on failure the committee (and that already-advanced epoch)
are kept; on success committee, epoch and stats are updated. -/
def epochReload (loader : CommitteeLoader) (s : ProcState)
    (checkpointEpochVal : Nat) : ProcState :=
  if s.currentEpoch < checkpointEpochVal then
    let sE := { s with currentEpoch := checkpointEpochVal }
    match loader checkpointEpochVal with
    | .error _ => sE
    | .ok (newCommittee, newLoadedEpoch) =>
        { sE with
            committee := newCommittee
            currentEpoch := newLoadedEpoch
            stats := sE.stats.initializeCommitteeStats newCommittee }
  else s

/-- processor.go lines 120-128: record every committee member whose
bitmap index the matcher reports as signed. -/
def recordSigners (sm : StatsManager) (bitmap : List Nat)
    (committee : List ValidatorInfo) : StatsManager :=
  committee.foldl
    (fun m v =>
      if IsValidatorSigned bitmap v.bitmapIndex then
        m.updateValidatorSigned v.suiAddress
      else m)
    sm

/-- processor.go line 69: the state after
`statsManager.IncrementTotalCheckpointsWithSig()`. -/
def afterIncrement (s : ProcState) : ProcState :=
  { s with stats := s.stats.incrementTotalCheckpointsWithSig }

/-- processor.go lines 69-99: the state after the total increment and
the epoch-change handling. -/
def afterReload (loader : CommitteeLoader) (s : ProcState) (epoch : Nat) : ProcState :=
  epochReload loader (afterIncrement s) epoch

/-- processor.go lines 69-101: the state after the total increment, the
epoch-change handling and `ResetSignedCurrent` on the (possibly
reloaded) committee. -/
def afterReset (loader : CommitteeLoader) (s : ProcState) (epoch : Nat) : ProcState :=
  let s2 := afterReload loader s epoch
  { s2 with stats := s2.stats.resetSignedCurrent s2.committee }

/-- processor.go lines 107-118: the first bitmap index that is out of
range for the committee size (the Go comparison is against
`uint32(committeeSize)`), if any; this is the index `log.Panicf` names. -/
def checkOutOfRange (bitmap : List Nat) (committeeSize : Nat) : Option Nat :=
  bitmap.find? (fun idxInBitmap => decide (committeeSize % UINT32_MOD ≤ idxInBitmap))

/-- processor.go, one loop iteration for a checkpoint whose signature is
present: increment the total, maybe reload the committee, reset the
per-checkpoint flags, panic on an out-of-range bitmap index, otherwise
record the signers. -/
def processSignedCheckpoint (loader : CommitteeLoader) (s : ProcState)
    (cp : Checkpoint) (sig : SigData) : Except PanicInfo ProcState :=
  let s3 := afterReset loader s sig.epoch
  match checkOutOfRange sig.bitmap s3.committee.length with
  | some badIdx =>
      .error ⟨badIdx, s3.committee.length, s3.currentEpoch, cp.sequenceNumber, s3⟩
  | none =>
      .ok { s3 with stats := recordSigners s3.stats sig.bitmap s3.committee }

/-- processor.go, one loop iteration: checkpoints without signature data
are skipped with no state change. -/
def processCheckpoint (loader : CommitteeLoader) (s : ProcState)
    (cp : Checkpoint) : Except PanicInfo ProcState :=
  match cp.signature with
  | none => .ok s
  | some sig => processSignedCheckpoint loader s cp sig

/-!  Committee Reconciler: the validator Loader and its JSON-RPC inputs. -/

/-- internal/rpc/client.go ActiveValidatorJSON: one entry of the
`activeValidators` array of a `suix_getLatestSuiSystemState` response. -/
structure ActiveValidatorJSON where
  suiAddress : String
  name : String
  protocolPubkeyBytes : String
deriving Repr, DecidableEq

/-- internal/rpc/client.go SuiSystemStateResult. -/
structure SuiSystemStateResult where
  epoch : String
  activeValidators : List ActiveValidatorJSON
deriving Repr, DecidableEq

/-- internal/rpc/client.go CommitteeInfoResultJSON: the epoch string and
the ordered validator entries (each a list of strings whose first
element is the protocol public key). -/
structure CommitteeInfoResultJSON where
  epoch : String
  validators : List (List String)
deriving Repr, DecidableEq

/-- Go's `strconv.ParseUint(s, 10, 64)`: fails on the empty string, on
any non-digit character, and on values that do not fit in 64 bits. -/
def parseUint64 (s : String) : Option Nat :=
  if s = "" then none
  else if s.data.all Char.isDigit then
    let v := s.data.foldl (fun acc c => acc * 10 + (c.toNat - '0'.toNat)) 0
    if v < 2 ^ 64 then some v else none
  else none

/-- internal/rpc/systemstate.go GetLatestSuiSystemState, with the wire
call abstracted as its result: propagate a transport error, reject a
response whose epoch string is empty, otherwise hand back the result. -/
def getLatestSuiSystemState (resp : Except String SuiSystemStateResult) :
    Except String SuiSystemStateResult :=
  match resp with
  | .error e => .error ("suix_getLatestSuiSystemState call failed: " ++ e)
  | .ok r =>
      if r.epoch = "" then .error "epoch not found in latest system state response"
      else .ok r

/-- internal/rpc/committee.go GetCommitteeInfo, with the wire call
abstracted as its result: propagate a transport error, reject an empty
epoch string or an unparsable epoch; an epoch differing from the one
queried is only a logged warning. -/
def getCommitteeInfo (resp : Except String CommitteeInfoResultJSON) :
    Except String CommitteeInfoResultJSON :=
  match resp with
  | .error e => .error ("suix_getCommitteeInfo call failed: " ++ e)
  | .ok r =>
      if r.epoch = "" then
        .error "epoch or validators not found in committee info response"
      else
        match parseUint64 r.epoch with
        | none => .error "error parsing epoch from committee info response"
        | some _ => .ok r

/-- validator ShortPubKey: truncate a public key to its first 10
characters for log and placeholder strings. -/
def shortPubKey (pubKey : String) : String :=
  if pubKey.length > 10 then pubKey.take 10 else pubKey

/-- The ValidatorInfo built by the Loader (the four-field version of
the struct that accompanies LoadEpochValidatorData in the source). -/
structure LoaderValidatorInfo where
  name : String
  suiAddress : String
  protocolPubkeyBytes : String
  bitmapIndex : Nat
deriving Repr, DecidableEq

/-- validator NewValidatorInfo (four-argument version): the display name
is passed through strings.TrimSpace. -/
def newLoaderValidatorInfo (name suiAddress protocolPubkeyBytes : String)
    (bitmapIndex : Nat) : LoaderValidatorInfo :=
  { name := name.trim
    suiAddress := suiAddress
    protocolPubkeyBytes := protocolPubkeyBytes
    bitmapIndex := bitmapIndex }

/-- The placeholder record synthesized by LoadEpochValidatorData when a
committee public key has no matching metadata entry. -/
def placeholderValidatorInfo (pubKey : String) (bitmapIdx : Nat) :
    LoaderValidatorInfo :=
  { name := "Unknown Validator (Pubkey: " ++ shortPubKey pubKey ++ "...)"
    suiAddress := "unknown-sui-address-for-" ++ shortPubKey pubKey
    protocolPubkeyBytes := pubKey
    bitmapIndex := bitmapIdx }

/-- LoadEpochValidatorData step 0: when the target epoch is zero,
resolve the latest epoch from a pre-fetched system state (empty or
unparsable epoch strings are errors); otherwise use the target epoch
and its decimal rendering (strconv.FormatUint). -/
def resolveTargetEpoch (targetEpoch : Nat)
    (preFetchResp : Except String SuiSystemStateResult) :
    Except String (Nat × String) :=
  if targetEpoch = 0 then
    match getLatestSuiSystemState preFetchResp with
    | .error e => .error ("error fetching system state (pre-fetch): " ++ e)
    | .ok systemState =>
        if systemState.epoch = "" then
          .error "epoch not found in pre-fetch system state response"
        else
          match parseUint64 systemState.epoch with
          | none => .error "error parsing epoch from pre-fetch system state response"
          | some actualEpoch => .ok (actualEpoch, systemState.epoch)
  else .ok (targetEpoch, toString targetEpoch)

/-- LoadEpochValidatorData step 1 body: collect the ordered committee
public keys, failing on the first entry that is empty or lacks its
first element. -/
def extractPubKeys : List (List String) → Except String (List String)
  | [] => .ok []
  | valData :: rest =>
      match valData with
      | [] => .error "malformed validator data or empty pubkey in committee info"
      | k :: _ =>
          if k = "" then .error "malformed validator data or empty pubkey in committee info"
          else
            match extractPubKeys rest with
            | .error e => .error e
            | .ok ks => .ok (k :: ks)

/-- LoadEpochValidatorData step 3 map build: index the metadata entries
by protocol public key, skipping entries with an empty key; a later
entry with the same key overwrites an earlier one (Go map semantics). -/
def buildActiveValidatorsMap (vals : List ActiveValidatorJSON) :
    String → Option ActiveValidatorJSON :=
  vals.foldl
    (fun m v =>
      if v.protocolPubkeyBytes = "" then m
      else fun k => if k = v.protocolPubkeyBytes then some v else m k)
    (fun _ => none)

/-- LoadEpochValidatorData step 3, one committee entry: metadata hit
builds a trimmed record, metadata miss builds the deterministic
placeholder, with the given bitmap index either way. -/
def joinRecord (metaMap : String → Option ActiveValidatorJSON)
    (bitmapIdx : Nat) (pubKey : String) : LoaderValidatorInfo :=
  match metaMap pubKey with
  | none => placeholderValidatorInfo pubKey bitmapIdx
  | some meta => newLoaderValidatorInfo meta.name meta.suiAddress pubKey bitmapIdx

/-- LoadEpochValidatorData step 3 join, iterating the ordered keys with
their position as bitmap index. -/
def joinCommitteeAux (metaMap : String → Option ActiveValidatorJSON)
    (bitmapIdx : Nat) : List String → List LoaderValidatorInfo
  | [] => []
  | pubKey :: rest =>
      joinRecord metaMap bitmapIdx pubKey
        :: joinCommitteeAux metaMap (bitmapIdx + 1) rest

/-- The Loader's LoadEpochValidatorData with its three wire calls
abstracted as their results (pre-fetch system state, committee info,
metadata system state).  The epoch reported by the metadata response is
parsed — an unparsable value is an error — but a mere mismatch with the
committee epoch is only a logged warning. -/
def loadEpochValidatorData (targetEpoch : Nat)
    (preFetchResp : Except String SuiSystemStateResult)
    (committeeResp : Except String CommitteeInfoResultJSON)
    (metaResp : Except String SuiSystemStateResult) :
    Except String (List LoaderValidatorInfo × Nat) :=
  match resolveTargetEpoch targetEpoch preFetchResp with
  | .error e => .error e
  | .ok (actualEpoch, epochToQueryStr) =>
      match getCommitteeInfo committeeResp with
      | .error e =>
          .error ("error fetching committee info for epoch " ++ epochToQueryStr ++ ": " ++ e)
      | .ok committeeInfo =>
          match extractPubKeys committeeInfo.validators with
          | .error e => .error e
          | .ok committeePubKeysOrdered =>
              match getLatestSuiSystemState metaResp with
              | .error e => .error ("error fetching system state for metadata: " ++ e)
              | .ok systemStateMetadata =>
                  match parseUint64 systemStateMetadata.epoch with
                  | none => .error "error parsing epoch from system state metadata response"
                  | some _latestSystemStateEpoch =>
                      .ok
                        (joinCommitteeAux
                          (buildActiveValidatorsMap systemStateMetadata.activeValidators)
                          0 committeePubKeysOrdered,
                         actualEpoch)

/-!  Stream Resilience Loop: internal/grpc/subscriber.go. -/

/-- gRPC status codes used by the subscriber's error classification. -/
def codeCanceled : Nat := 1

/-- gRPC status code Internal. -/
def codeInternal : Nat := 13

/-- gRPC status code Unavailable. -/
def codeUnavailable : Nat := 14

/-- The shape of a failed `stream.Recv()`: clean end-of-stream, a gRPC
status error with its code, or a non-gRPC error. -/
inductive RecvErrKind where
  | eof : RecvErrKind
  | grpcStatus (code : Nat) : RecvErrKind
  | nonGrpc : RecvErrKind
deriving Repr, DecidableEq

/-- What the receive loop does after classifying a failure: return from
the subscriber (terminating it) or break out to resubscribe after the
retry delay. -/
inductive StreamAction where
  | terminate : StreamAction
  | resubscribe : StreamAction
deriving Repr, DecidableEq

/-- subscriber.go lines 75-101: classification of a receive failure.
A fired caller context terminates; EOF resubscribes; gRPC code Canceled
terminates; Internal and Unavailable resubscribe; any other gRPC code
and any non-gRPC error also resubscribe (logged differently). -/
def classifyRecvFailure (ctxErr : Bool) (k : RecvErrKind) : StreamAction :=
  if ctxErr then .terminate
  else
    match k with
    | .eof => .resubscribe
    | .grpcStatus c =>
        if c = codeCanceled then .terminate
        else if c = codeInternal ∨ c = codeUnavailable then .resubscribe
        else .resubscribe
    | .nonGrpc => .resubscribe

/-- One outcome of `stream.Recv()` inside a subscription attempt: either
a response (whose checkpoint may be absent, and whose channel send may
observe a fired context) or a failure. -/
inductive RecvOutcome where
  | item (ctxDoneAtSend : Bool) (c : Option Checkpoint) : RecvOutcome
  | failure (ctxErr : Bool) (k : RecvErrKind) : RecvOutcome
deriving Repr, DecidableEq

/-- How a single subscription attempt's receive loop ends: the
subscriber returns, it breaks out to resubscribe, or the scripted
outcomes ran out while it was still blocked in Recv. -/
inductive RecvExit where
  | terminated : RecvExit
  | backoff : RecvExit
  | exhausted : RecvExit
deriving Repr, DecidableEq

/-- subscriber.go recvLoop: deliver each received checkpoint to the
channel (terminating, with the event discarded, if the context fires at
the send), and classify the first failure. -/
def runRecvLoop : List RecvOutcome → List Checkpoint × RecvExit
  | [] => ([], .exhausted)
  | .item ctxDoneAtSend c :: rest =>
      match c with
      | none => runRecvLoop rest
      | some cp =>
          if ctxDoneAtSend then ([], .terminated)
          else
            let r := runRecvLoop rest
            (cp :: r.1, r.2)
  | .failure ctxErr k :: rest =>
      match classifyRecvFailure ctxErr k with
      | .terminate => ([], .terminated)
      | .resubscribe =>
          match rest with
          | _ => ([], .backoff)

/-- The observable outcome of SubscribeToCheckpoints on a script of
subscription attempts: the checkpoints delivered to the channel, and
whether the function returned (running its deferred close of the output
channel). -/
structure SubscriberResult where
  delivered : List Checkpoint
  channelClosed : Bool
deriving Repr, DecidableEq

/-- subscriber.go outer loop over successive successful subscription
attempts: a terminated receive loop returns (closing the channel, via
the deferred close) without consuming later attempts; a backoff exit
resubscribes and continues with the next attempt. -/
def runSubscriber : List (List RecvOutcome) → SubscriberResult
  | [] => ⟨[], false⟩
  | attempt :: rest =>
      let r := runRecvLoop attempt
      match r.2 with
      | .terminated => ⟨r.1, true⟩
      | .backoff =>
          let next := runSubscriber rest
          ⟨r.1 ++ next.delivered, next.channelClosed⟩
      | .exhausted => ⟨r.1, false⟩

/-!  Proof machinery: the three per-committee StatsManager folds all
write exactly one key per member, as a function of that key's previous
value.  `keyFold` captures that shape; lookup lemmas follow. -/

/-- Pointwise extensionality for StatsManager. -/
theorem StatsManager.ext_stats (a b : StatsManager)
    (h1 : ∀ k, a.validatorStats k = b.validatorStats k)
    (h2 : a.totalCheckpointsWithSig = b.totalCheckpointsWithSig) : a = b := by
  cases a with
  | mk fa ta =>
      cases b with
      | mk fb tb =>
          simp only [StatsManager.mk.injEq]
          exact ⟨funext h1, h2⟩

/-- Lookup after a single-key write. -/
theorem StatsManager.setStat_lookup (sm : StatsManager) (k a : String)
    (v : Option ValidatorStats) :
    (sm.setStat k v).validatorStats a = if a = k then v else sm.validatorStats a := rfl

/-- Writing back the value already stored is the identity. -/
theorem StatsManager.setStat_self (sm : StatsManager) (k : String)
    (v : Option ValidatorStats) (h : sm.validatorStats k = v) :
    sm.setStat k v = sm := by
  refine StatsManager.ext_stats _ _ (fun a => ?_) rfl
  rw [StatsManager.setStat_lookup]
  by_cases hak : a = k
  · subst hak; rw [if_pos rfl, h]
  · rw [if_neg hak]

/-- A fold over a committee that rewrites exactly the key of each member
as a function `φ` of the member and the key's previous value. -/
def keyFold (φ : ValidatorInfo → Option ValidatorStats → Option ValidatorStats) :
    List ValidatorInfo → StatsManager → StatsManager
  | [], sm => sm
  | v :: rest, sm =>
      keyFold φ rest (sm.setStat v.suiAddress (φ v (sm.validatorStats v.suiAddress)))

/-- `keyFold` never touches the shared total. -/
theorem keyFold_total (φ) (c : List ValidatorInfo) (sm : StatsManager) :
    (keyFold φ c sm).totalCheckpointsWithSig = sm.totalCheckpointsWithSig := by
  induction c generalizing sm with
  | nil => rfl
  | cons v rest ih => exact ih _

/-- Keys of no committee member are untouched by `keyFold`. -/
theorem keyFold_lookup_notMem (φ) (c : List ValidatorInfo) (sm : StatsManager)
    (k : String) (h : ∀ v ∈ c, k ≠ v.suiAddress) :
    (keyFold φ c sm).validatorStats k = sm.validatorStats k := by
  induction c generalizing sm with
  | nil => rfl
  | cons w rest ih =>
      have hk : k ≠ w.suiAddress := h w (List.mem_cons_self w rest)
      rw [keyFold, ih _ (fun v hv => h v (List.mem_cons_of_mem w hv)),
        StatsManager.setStat_lookup, if_neg hk]

/-- With pairwise-distinct member addresses, `keyFold` rewrites each
member's key exactly once, from its original value. -/
theorem keyFold_lookup_mem (φ) (c : List ValidatorInfo) (sm : StatsManager)
    (v : ValidatorInfo) (hn : (c.map (·.suiAddress)).Nodup) (hv : v ∈ c) :
    (keyFold φ c sm).validatorStats v.suiAddress =
      φ v (sm.validatorStats v.suiAddress) := by
  induction c generalizing sm with
  | nil => cases hv
  | cons w rest ih =>
      rw [List.map_cons, List.nodup_cons] at hn
      rcases List.mem_cons.mp hv with hvw | hvrest
      · subst hvw
        rw [keyFold, keyFold_lookup_notMem _ _ _ _
          (fun u hu hequ => hn.1 (by rw [hequ]; exact List.mem_map_of_mem (·.suiAddress) hu)),
          StatsManager.setStat_lookup, if_pos rfl]
      · have hne : v.suiAddress ≠ w.suiAddress := by
          intro heq
          exact hn.1 (by rw [← heq]; exact List.mem_map_of_mem (·.suiAddress) hvrest)
        rw [keyFold, ih _ hn.2 hvrest, StatsManager.setStat_lookup, if_neg hne]

/-- InitializeCommitteeStats is the `keyFold` that keeps present entries
and inserts a zero counter at absent ones. -/
theorem initializeCommitteeStats_eq_keyFold (c : List ValidatorInfo) (sm : StatsManager) :
    sm.initializeCommitteeStats c =
      keyFold (fun _ o => some (o.getD ⟨0, false⟩)) c sm := by
  induction c generalizing sm with
  | nil => rfl
  | cons v rest ih =>
      unfold StatsManager.initializeCommitteeStats at ih ⊢
      rw [List.foldl_cons, keyFold]
      cases hl : sm.validatorStats v.suiAddress with
      | some st =>
          rw [ih]
          congr 1
          exact (StatsManager.setStat_self sm _ _ (by rw [hl]; rfl)).symm
      | none =>
          rw [ih]
          rfl

/-- ResetSignedCurrent is the `keyFold` that clears the flag of present
entries and leaves absent keys absent. -/
theorem resetSignedCurrent_eq_keyFold (c : List ValidatorInfo) (sm : StatsManager) :
    sm.resetSignedCurrent c =
      keyFold (fun _ o => o.map (fun st => { st with signedCurrent := false })) c sm := by
  induction c generalizing sm with
  | nil => rfl
  | cons v rest ih =>
      unfold StatsManager.resetSignedCurrent at ih ⊢
      rw [List.foldl_cons, keyFold]
      cases hl : sm.validatorStats v.suiAddress with
      | some st =>
          rw [ih]
          rfl
      | none =>
          rw [ih]
          congr 1
          exact (StatsManager.setStat_self sm _ _ (by rw [hl]; rfl)).symm

/-- The signer-recording loop is the `keyFold` that bumps a present
entry when the matcher reports its index signed. -/
theorem recordSigners_eq_keyFold (bitmap : List Nat) (c : List ValidatorInfo)
    (sm : StatsManager) :
    recordSigners sm bitmap c =
      keyFold
        (fun v o =>
          if IsValidatorSigned bitmap v.bitmapIndex then
            o.map (fun st => ⟨st.attestedCount + 1, true⟩)
          else o)
        c sm := by
  induction c generalizing sm with
  | nil => rfl
  | cons v rest ih =>
      unfold recordSigners at ih ⊢
      rw [List.foldl_cons, keyFold]
      by_cases hs : IsValidatorSigned bitmap v.bitmapIndex
      · rw [if_pos hs, if_pos hs, StatsManager.updateValidatorSigned]
        cases hl : sm.validatorStats v.suiAddress with
        | some st =>
            rw [ih]
            rfl
        | none =>
            rw [ih]
            congr 1
            exact (StatsManager.setStat_self sm _ _ (by rw [hl]; rfl)).symm
      · rw [if_neg hs, if_neg hs, ih]
        congr 1
        exact (StatsManager.setStat_self sm _ _ rfl).symm

/-!  Characterizations of the bitmap matcher and per-key behaviour of
the StatsManager folds. -/

/-- The matcher rejects negative indices outright. -/
theorem isValidatorSigned_neg (bitmap : List Nat) (idx : Int) (h : idx < 0) :
    IsValidatorSigned bitmap idx = false := by
  unfold IsValidatorSigned
  rw [if_pos h]

/-- Below the uint32 boundary the matcher is exactly membership of the
index in the signer collection. -/
theorem isValidatorSigned_eq_mem (bitmap : List Nat) (idx : Int)
    (h0 : 0 ≤ idx) (hlt : idx < (UINT32_MOD : Int)) :
    (IsValidatorSigned bitmap idx = true) ↔ idx ∈ bitmap.map (fun n : Nat => (n : Int)) := by
  have hmod : (UINT32_MOD : Int) = ((UINT32_MOD : Nat) : Int) := rfl
  have htn : idx.toNat % UINT32_MOD = idx.toNat := by
    apply Nat.mod_eq_of_lt
    omega
  unfold IsValidatorSigned
  rw [if_neg (not_lt.mpr h0)]
  simp only [List.any_eq_true, decide_eq_true_eq, htn]
  constructor
  · rintro ⟨b, hb, hbe⟩
    refine List.mem_map.mpr ⟨b, hb, ?_⟩
    omega
  · intro hm
    obtain ⟨b, hb, hbe⟩ := List.mem_map.mp hm
    exact ⟨b, hb, by omega⟩

/-- Full per-key description of InitializeCommitteeStats: present
entries are untouched; absent keys of committee members get a zero
counter; all other keys stay absent. -/
theorem initializeCommitteeStats_lookup (sm : StatsManager)
    (c : List ValidatorInfo) (k : String) :
    (sm.initializeCommitteeStats c).validatorStats k =
      match sm.validatorStats k with
      | some st => some st
      | none =>
          if k ∈ c.map (·.suiAddress) then some ⟨0, false⟩ else none := by
  induction c generalizing sm with
  | nil =>
      cases h : sm.validatorStats k with
      | some st => simpa [StatsManager.initializeCommitteeStats] using h
      | none => simpa [StatsManager.initializeCommitteeStats] using h
  | cons v rest ih =>
      unfold StatsManager.initializeCommitteeStats at ih ⊢
      rw [List.foldl_cons]
      cases hv : sm.validatorStats v.suiAddress with
      | some stv =>
          rw [ih]
          by_cases hk : k = v.suiAddress
          · subst hk
            rw [hv]
          · cases hsk : sm.validatorStats k with
            | some st => rfl
            | none =>
                simp only [List.map_cons, List.mem_cons, hk, false_or]
      | none =>
          rw [ih]
          by_cases hk : k = v.suiAddress
          · subst hk
            rw [StatsManager.setStat_lookup, if_pos rfl, hv]
            simp only [List.map_cons, List.mem_cons, true_or, if_pos]
          · rw [StatsManager.setStat_lookup, if_neg hk]
            cases hsk : sm.validatorStats k with
            | some st => rfl
            | none =>
                simp only [List.map_cons, List.mem_cons, hk, false_or]

/-- Full per-key description of ResetSignedCurrent: the flag of present
committee keys is cleared, counts are untouched, everything else is
untouched. -/
theorem resetSignedCurrent_lookup (sm : StatsManager)
    (c : List ValidatorInfo) (k : String) :
    (sm.resetSignedCurrent c).validatorStats k =
      if k ∈ c.map (·.suiAddress) then
        (sm.validatorStats k).map (fun st => { st with signedCurrent := false })
      else sm.validatorStats k := by
  induction c generalizing sm with
  | nil => simp [StatsManager.resetSignedCurrent]
  | cons v rest ih =>
      unfold StatsManager.resetSignedCurrent at ih ⊢
      rw [List.foldl_cons]
      cases hv : sm.validatorStats v.suiAddress with
      | some stv =>
          rw [ih]
          by_cases hk : k = v.suiAddress
          · subst hk
            by_cases hmem : v.suiAddress ∈ rest.map (·.suiAddress)
            · rw [if_pos hmem, StatsManager.setStat_lookup, if_pos rfl, hv]
              simp only [List.map_cons, List.mem_cons, true_or, if_pos]
              rfl
            · rw [if_neg hmem, StatsManager.setStat_lookup, if_pos rfl, hv]
              simp only [List.map_cons, List.mem_cons, true_or, if_pos]
              rfl
          · rw [StatsManager.setStat_lookup, if_neg hk]
            simp only [List.map_cons, List.mem_cons, hk, false_or]
      | none =>
          rw [ih]
          by_cases hk : k = v.suiAddress
          · subst hk
            by_cases hmem : v.suiAddress ∈ rest.map (·.suiAddress)
            · rw [if_pos hmem, hv]
              simp only [List.map_cons, List.mem_cons, true_or, if_pos]
            · rw [if_neg hmem, hv]
              simp only [List.map_cons, List.mem_cons, true_or, if_pos]
              rfl
          · simp only [List.map_cons, List.mem_cons, hk, false_or]

/-- Attested counts are never touched by ResetSignedCurrent. -/
theorem resetSignedCurrent_counts (sm : StatsManager)
    (c : List ValidatorInfo) (k : String) :
    ((sm.resetSignedCurrent c).validatorStats k).map (·.attestedCount) =
      (sm.validatorStats k).map (·.attestedCount) := by
  rw [resetSignedCurrent_lookup]
  by_cases hmem : k ∈ c.map (·.suiAddress)
  · rw [if_pos hmem]
    cases sm.validatorStats k <;> rfl
  · rw [if_neg hmem]

/-!  Monotonicity: present counters never lose value. -/

/-- `StatsLe sm sm'`: every counter present in `sm` is present in `sm'`
with an attested count at least as large. -/
def StatsLe (sm sm' : StatsManager) : Prop :=
  ∀ k st, sm.validatorStats k = some st →
    ∃ st', sm'.validatorStats k = some st' ∧ st.attestedCount ≤ st'.attestedCount

/-- `StatsLe` is reflexive. -/
theorem statsLe_refl (sm : StatsManager) : StatsLe sm sm :=
  fun _ st h => ⟨st, h, Nat.le_refl _⟩

/-- `StatsLe` along equal lookup functions. -/
theorem statsLe_of_lookup_eq {sm sm' : StatsManager}
    (h : ∀ k, sm'.validatorStats k = sm.validatorStats k) : StatsLe sm sm' :=
  fun k st hk => ⟨st, (h k).trans hk, Nat.le_refl _⟩

/-- `StatsLe` is transitive. -/
theorem statsLe_trans {a b c : StatsManager}
    (hab : StatsLe a b) (hbc : StatsLe b c) : StatsLe a c := by
  intro k st h
  obtain ⟨st1, h1, hle1⟩ := hab k st h
  obtain ⟨st2, h2, hle2⟩ := hbc k st1 h1
  exact ⟨st2, h2, hle1.trans hle2⟩

/-- A `keyFold` whose per-key function never drops an entry nor its
count is monotone. -/
theorem keyFold_statsLe (φ : ValidatorInfo → Option ValidatorStats → Option ValidatorStats)
    (hφ : ∀ v st, ∃ st', φ v (some st) = some st' ∧ st.attestedCount ≤ st'.attestedCount)
    (c : List ValidatorInfo) (sm : StatsManager) : StatsLe sm (keyFold φ c sm) := by
  induction c generalizing sm with
  | nil => exact statsLe_refl sm
  | cons v rest ih =>
      refine statsLe_trans (b := sm.setStat v.suiAddress (φ v (sm.validatorStats v.suiAddress))) ?_ (ih _)
      intro k st h
      rw [StatsManager.setStat_lookup]
      by_cases hk : k = v.suiAddress
      · subst hk
        rw [h]
        obtain ⟨st', hst', hle⟩ := hφ v st
        exact ⟨st', by rw [if_pos rfl, hst'], hle⟩
      · exact ⟨st, by rw [if_neg hk, h], Nat.le_refl _⟩

/-- InitializeCommitteeStats never decreases a present counter. -/
theorem initializeCommitteeStats_statsLe (sm : StatsManager) (c : List ValidatorInfo) :
    StatsLe sm (sm.initializeCommitteeStats c) := by
  rw [initializeCommitteeStats_eq_keyFold]
  exact keyFold_statsLe _ (fun v st => ⟨st, rfl, Nat.le_refl _⟩) c sm

/-- ResetSignedCurrent never decreases a present counter. -/
theorem resetSignedCurrent_statsLe (sm : StatsManager) (c : List ValidatorInfo) :
    StatsLe sm (sm.resetSignedCurrent c) := by
  rw [resetSignedCurrent_eq_keyFold]
  exact keyFold_statsLe _
    (fun v st => ⟨{ st with signedCurrent := false }, rfl, Nat.le_refl _⟩) c sm

/-- UpdateValidatorSigned never decreases a present counter. -/
theorem updateValidatorSigned_statsLe (sm : StatsManager) (addr : String) :
    StatsLe sm (sm.updateValidatorSigned addr) := by
  intro k st h
  unfold StatsManager.updateValidatorSigned
  cases ha : sm.validatorStats addr with
  | some sta =>
      rw [StatsManager.setStat_lookup]
      by_cases hk : k = addr
      · subst hk
        rw [h] at ha
        cases ha
        exact ⟨_, by rw [if_pos rfl], Nat.le_succ _⟩
      · exact ⟨st, by rw [if_neg hk, h], Nat.le_refl _⟩
  | none => exact ⟨st, h, Nat.le_refl _⟩

/-- The signer-recording loop never decreases a present counter. -/
theorem recordSigners_statsLe (sm : StatsManager) (bitmap : List Nat)
    (c : List ValidatorInfo) : StatsLe sm (recordSigners sm bitmap c) := by
  rw [recordSigners_eq_keyFold]
  refine keyFold_statsLe _ (fun v st => ?_) c sm
  by_cases hs : IsValidatorSigned bitmap v.bitmapIndex
  · exact ⟨_, by rw [if_pos hs]; rfl, Nat.le_succ _⟩
  · exact ⟨st, by rw [if_neg hs], Nat.le_refl _⟩

/-!  Totals and monotonicity through one processor iteration. -/

/-- InitializeCommitteeStats leaves the shared total unchanged. -/
theorem initializeCommitteeStats_total (sm : StatsManager) (c : List ValidatorInfo) :
    (sm.initializeCommitteeStats c).totalCheckpointsWithSig =
      sm.totalCheckpointsWithSig := by
  rw [initializeCommitteeStats_eq_keyFold, keyFold_total]

/-- ResetSignedCurrent leaves the shared total unchanged. -/
theorem resetSignedCurrent_total (sm : StatsManager) (c : List ValidatorInfo) :
    (sm.resetSignedCurrent c).totalCheckpointsWithSig = sm.totalCheckpointsWithSig := by
  rw [resetSignedCurrent_eq_keyFold, keyFold_total]

/-- The signer-recording loop leaves the shared total unchanged. -/
theorem recordSigners_total (sm : StatsManager) (bitmap : List Nat)
    (c : List ValidatorInfo) :
    (recordSigners sm bitmap c).totalCheckpointsWithSig = sm.totalCheckpointsWithSig := by
  rw [recordSigners_eq_keyFold, keyFold_total]

/-- The state the process is left holding: the new state on a normal
iteration, the state at the moment of the `log.Panicf` on the fatal
path. -/
def exceptState : Except PanicInfo ProcState → ProcState
  | .ok s => s
  | .error p => p.stateAtPanic

/-- The reload step never changes the shared total. -/
theorem epochReload_total (loader : CommitteeLoader) (s : ProcState) (e : Nat) :
    (epochReload loader s e).stats.totalCheckpointsWithSig =
      s.stats.totalCheckpointsWithSig := by
  unfold epochReload
  by_cases h : s.currentEpoch < e
  · rw [if_pos h]
    cases loader e with
    | error err => rfl
    | ok p =>
        cases p with
        | mk c e2 =>
            exact initializeCommitteeStats_total s.stats c
  · rw [if_neg h]

/-- The reload step never decreases a present counter. -/
theorem epochReload_statsLe (loader : CommitteeLoader) (s : ProcState) (e : Nat) :
    StatsLe s.stats (epochReload loader s e).stats := by
  unfold epochReload
  by_cases h : s.currentEpoch < e
  · rw [if_pos h]
    cases loader e with
    | error err => exact statsLe_refl _
    | ok p =>
        cases p with
        | mk c e2 => exact initializeCommitteeStats_statsLe s.stats c
  · rw [if_neg h]
    exact statsLe_refl _

/-- Events at or below the current epoch trigger no reload. -/
theorem epochReload_not_gt (loader : CommitteeLoader) (s : ProcState) (e : Nat)
    (h : e ≤ s.currentEpoch) : epochReload loader s e = s := by
  unfold epochReload
  rw [if_neg (not_lt.mpr h)]

/-- A failed reload keeps the old committee and stats but has already
advanced `currentEpoch` to the event epoch. -/
theorem epochReload_failure (loader : CommitteeLoader) (s : ProcState) (e : Nat)
    (hgt : s.currentEpoch < e) (err : String) (herr : loader e = .error err) :
    epochReload loader s e = { s with currentEpoch := e } := by
  unfold epochReload
  rw [if_pos hgt, herr]

/-- A successful reload installs the loaded committee, adopts the epoch
the loader resolved, and initializes the stats for the new committee. -/
theorem epochReload_success (loader : CommitteeLoader) (s : ProcState) (e : Nat)
    (hgt : s.currentEpoch < e) (c : List ValidatorInfo) (e2 : Nat)
    (hok : loader e = .ok (c, e2)) :
    epochReload loader s e =
      { s with
          committee := c
          currentEpoch := e2
          stats := s.stats.initializeCommitteeStats c } := by
  unfold epochReload
  rw [if_pos hgt, hok]

/-- One signature-carrying iteration bumps the shared total by exactly
one, on the normal path and at the fatal path alike. -/
theorem processSignedCheckpoint_total (loader : CommitteeLoader) (s : ProcState)
    (cp : Checkpoint) (sig : SigData) :
    (exceptState (processSignedCheckpoint loader s cp sig)).stats.totalCheckpointsWithSig =
      s.stats.totalCheckpointsWithSig + 1 := by
  have hreset : (afterReset loader s sig.epoch).stats.totalCheckpointsWithSig =
      s.stats.totalCheckpointsWithSig + 1 := by
    unfold afterReset afterReload
    rw [resetSignedCurrent_total, epochReload_total]
    rfl
  simp only [processSignedCheckpoint]
  cases hf : checkOutOfRange sig.bitmap (afterReset loader s sig.epoch).committee.length with
  | some badIdx =>
      simpa [exceptState] using hreset
  | none =>
      simp only [exceptState]
      rw [recordSigners_total]
      exact hreset

/-- One signature-carrying iteration never decreases a present counter,
on the normal path and at the fatal path alike. -/
theorem processSignedCheckpoint_statsLe (loader : CommitteeLoader) (s : ProcState)
    (cp : Checkpoint) (sig : SigData) :
    StatsLe s.stats (exceptState (processSignedCheckpoint loader s cp sig)).stats := by
  have h1 : StatsLe s.stats (afterIncrement s).stats :=
    statsLe_of_lookup_eq (fun k => rfl)
  have h2 : StatsLe s.stats (afterReload loader s sig.epoch).stats :=
    statsLe_trans h1 (epochReload_statsLe loader (afterIncrement s) sig.epoch)
  have h3 : StatsLe s.stats (afterReset loader s sig.epoch).stats := by
    refine statsLe_trans h2 ?_
    unfold afterReset
    exact resetSignedCurrent_statsLe _ _
  simp only [processSignedCheckpoint]
  cases hf : checkOutOfRange sig.bitmap (afterReset loader s sig.epoch).committee.length with
  | some badIdx => simpa [exceptState] using h3
  | none =>
      simp only [exceptState]
      exact statsLe_trans h3 (recordSigners_statsLe _ _ _)

/-- One full iteration (including the signature-free skip) never
decreases a present counter. -/
theorem processCheckpoint_statsLe (loader : CommitteeLoader) (s : ProcState)
    (cp : Checkpoint) :
    StatsLe s.stats (exceptState (processCheckpoint loader s cp)).stats := by
  unfold processCheckpoint
  cases cp.signature with
  | none => exact statsLe_refl _
  | some sig => exact processSignedCheckpoint_statsLe loader s cp sig

/-- IncrementTotalCheckpointsWithSig leaves the counter map untouched. -/
theorem incrementTotal_lookup (sm : StatsManager) :
    sm.incrementTotalCheckpointsWithSig.validatorStats = sm.validatorStats := rfl

/-!  Claim C7: the Bitmap Matcher contract. -/

/-- C7 counterexample: the claim says the matcher returns true iff the
non-negative index is a member of the signer collection, for every
non-negative index.  At `validatorIndex = 2^32` the Go narrowing
conversion `uint32(validatorIndex)` wraps to 0, so the matcher reports
`true` against the collection `[0]` although `2^32` is not a member. -/
theorem c7_counterexample :
    IsValidatorSigned [0] ((2 : Int) ^ 32) = true ∧
      ¬ ((2 : Int) ^ 32 ∈ ([0] : List Nat).map (fun n : Nat => (n : Int))) := by
  constructor
  · decide
  · decide

/-- C7 (amended): the matcher returns false for every negative index,
and for every non-negative index below `2^32` it returns true iff the
index is a member of the signer collection (indices at or above `2^32`
are first reduced modulo `2^32` by the uint32 conversion). -/
theorem c7_matcher_contract (bitmap : List Nat) (idx : Int) :
    (idx < 0 → IsValidatorSigned bitmap idx = false) ∧
      (0 ≤ idx → idx < (UINT32_MOD : Int) →
        ((IsValidatorSigned bitmap idx = true) ↔
          idx ∈ bitmap.map (fun n : Nat => (n : Int)))) :=
  ⟨isValidatorSigned_neg bitmap idx,
   fun h0 hlt => isValidatorSigned_eq_mem bitmap idx h0 hlt⟩

/-- C7 witness: the amended contract evaluated on concrete inputs. -/
theorem c7_matcher_contract_witness :
    (IsValidatorSigned [0, 2] (-1) = false) ∧
      ((IsValidatorSigned [0, 2] 2 = true) ↔
        (2 : Int) ∈ ([0, 2] : List Nat).map (fun n : Nat => (n : Int))) :=
  ⟨(c7_matcher_contract [0, 2] (-1)).1 (by decide),
   (c7_matcher_contract [0, 2] 2).2 (by decide) (by decide)⟩

/-!  Claim C9: frame effect of signature-free checkpoints, and the
total counter. -/

/-- C9: a checkpoint without signature data changes nothing at all (the
iteration returns the state unchanged: no counter, flag, epoch or
committee change, and no total increment); a checkpoint with signature
data bumps the shared total by exactly one, whether the iteration ends
normally or on the fatal path. -/
theorem c9_no_sig_frame (loader : CommitteeLoader) (s : ProcState) (cp : Checkpoint) :
    (cp.signature = none → processCheckpoint loader s cp = .ok s) ∧
      (∀ sig, cp.signature = some sig →
        (exceptState (processCheckpoint loader s cp)).stats.totalCheckpointsWithSig =
          s.stats.totalCheckpointsWithSig + 1) := by
  constructor
  · intro h
    unfold processCheckpoint
    rw [h]
  · intro sig h
    unfold processCheckpoint
    rw [h]
    exact processSignedCheckpoint_total loader s cp sig

/-- The always-failing loader used by concrete witnesses. -/
def cLoaderFail : CommitteeLoader := fun _ => .error "committee load failed"

/-- A concrete committee member used by witnesses. -/
def vA : ValidatorInfo :=
  { name := "A", suiAddress := "a", protocolPubkeyBytes := "pkA"
    bitmapIndex := 0, votingPower := 100 }

/-- C9 witness: the frame property evaluated on a concrete
signature-free checkpoint and a concrete signature-carrying one. -/
theorem c9_no_sig_frame_witness :
    processCheckpoint cLoaderFail ⟨5, [vA], StatsManager.new⟩ ⟨10, none⟩ =
        .ok ⟨5, [vA], StatsManager.new⟩ ∧
      (exceptState (processCheckpoint cLoaderFail ⟨5, [vA], StatsManager.new⟩
          ⟨11, some ⟨5, [0]⟩⟩)).stats.totalCheckpointsWithSig =
        StatsManager.new.totalCheckpointsWithSig + 1 :=
  ⟨(c9_no_sig_frame cLoaderFail ⟨5, [vA], StatsManager.new⟩ ⟨10, none⟩).1 rfl,
   (c9_no_sig_frame cLoaderFail ⟨5, [vA], StatsManager.new⟩ ⟨11, some ⟨5, [0]⟩⟩).2
     ⟨5, [0]⟩ rfl⟩

/-!  Support for the out-of-range check and reload reasoning. -/

/-- When every bitmap index is below the committee size, the bounds
check finds nothing. -/
theorem checkOutOfRange_none (bitmap : List Nat) (len : Nat)
    (hlen : len < UINT32_MOD) (hrange : ∀ b ∈ bitmap, b < len) :
    checkOutOfRange bitmap len = none := by
  unfold checkOutOfRange
  rw [List.find?_eq_none]
  intro b hb
  have := hrange b hb
  simp only [Nat.mod_eq_of_lt hlen, decide_eq_true_eq]
  omega

/-- When some bitmap index reaches the committee size, the bounds check
reports an offending member of the bitmap. -/
theorem checkOutOfRange_some (bitmap : List Nat) (len : Nat)
    (hlen : len < UINT32_MOD) (hbad : ∃ b ∈ bitmap, len ≤ b) :
    ∃ i, checkOutOfRange bitmap len = some i ∧ i ∈ bitmap ∧ len ≤ i := by
  unfold checkOutOfRange
  cases hf : bitmap.find? (fun idxInBitmap => decide (len % UINT32_MOD ≤ idxInBitmap)) with
  | none =>
      exfalso
      rw [List.find?_eq_none] at hf
      obtain ⟨b, hb, hble⟩ := hbad
      have := hf b hb
      simp only [Nat.mod_eq_of_lt hlen, decide_eq_true_eq] at this
      omega
  | some i =>
      refine ⟨i, rfl, List.mem_of_find?_eq_some hf, ?_⟩
      have := List.find?_some hf
      simpa [Nat.mod_eq_of_lt hlen] using this

/-- A committee reload (in any of its outcomes) keeps every counter
entry that was present, with its exact value. -/
theorem epochReload_lookup_present (loader : CommitteeLoader) (s : ProcState)
    (e : Nat) (k : String) (st : ValidatorStats)
    (h : s.stats.validatorStats k = some st) :
    (epochReload loader s e).stats.validatorStats k = some st := by
  unfold epochReload
  by_cases hgt : s.currentEpoch < e
  · rw [if_pos hgt]
    cases loader e with
    | error err => exact h
    | ok p =>
        cases p with
        | mk c e2 =>
            rw [initializeCommitteeStats_lookup, h]
  · rw [if_neg hgt]
    exact h

/-- Up to (and including) the per-checkpoint flag reset, an iteration
preserves the attested count of every key present at its start. -/
theorem afterReset_counts (loader : CommitteeLoader) (s : ProcState) (e : Nat)
    (k : String) (st : ValidatorStats)
    (h : s.stats.validatorStats k = some st) :
    (((afterReset loader s e).stats.validatorStats k).map (·.attestedCount)) =
      some st.attestedCount := by
  unfold afterReset
  dsimp only
  rw [resetSignedCurrent_counts]
  unfold afterReload
  rw [epochReload_lookup_present loader (afterIncrement s) e k st h]
  rfl

/-!  Claim C2: out-of-range signer index takes the fatal path. -/

/-- C2 counterexample: the claim says that on the fatal path no
validator's signedCurrent is updated for that event.  In the source,
`ResetSignedCurrent` runs before the bounds check, so a validator that
had `signedCurrent = true` has the flag cleared by the time the panic
fires: with one validator at count 3 and flag true, and a checkpoint
whose signer indices are `[1]` (equal to the committee size), the state
at the panic holds `⟨3, false⟩`, not the untouched `⟨3, true⟩`. -/
theorem c2_counterexample :
    (match processCheckpoint cLoaderFail
        ⟨5, [vA], ⟨fun k => if k = "a" then some ⟨3, true⟩ else none, 7⟩⟩
        ⟨42, some ⟨5, [1]⟩⟩ with
      | .error p => p.stateAtPanic.stats.validatorStats "a"
      | .ok _ => none) = some ⟨3, false⟩ ∧
      (⟨fun k => if k = "a" then some ⟨3, true⟩ else none, 7⟩ :
        StatsManager).validatorStats "a" = some ⟨3, true⟩ := by
  constructor
  · decide
  · decide

/-- C2 (amended): with the committee in effect at the bounds check
(after any reload), a signer index at or above the committee size makes
the iteration take the fatal path, whose diagnostic names an offending
bitmap index, the committee size, the current epoch and the checkpoint
sequence; at that point no attested count has changed (though the
signedCurrent flags have already been cleared by the reset that runs
before the check); when every signer index is below the committee size
the fatal path is not taken. -/
theorem c2_out_of_range_fatal (loader : CommitteeLoader) (s : ProcState)
    (cp : Checkpoint) (sig : SigData)
    (hsig : cp.signature = some sig)
    (hlen : (afterReset loader s sig.epoch).committee.length < UINT32_MOD) :
    ((∃ b ∈ sig.bitmap, (afterReset loader s sig.epoch).committee.length ≤ b) →
      ∃ p, processCheckpoint loader s cp = .error p ∧
        p.idx ∈ sig.bitmap ∧
        (afterReset loader s sig.epoch).committee.length ≤ p.idx ∧
        p.committeeSize = (afterReset loader s sig.epoch).committee.length ∧
        p.epoch = (afterReset loader s sig.epoch).currentEpoch ∧
        p.checkpointSeq = cp.sequenceNumber ∧
        (∀ k st, s.stats.validatorStats k = some st →
          ((p.stateAtPanic.stats.validatorStats k).map (·.attestedCount)) =
            some st.attestedCount)) ∧
      ((∀ b ∈ sig.bitmap, b < (afterReset loader s sig.epoch).committee.length) →
        ∃ s2, processCheckpoint loader s cp = .ok s2) := by
  constructor
  · intro hbad
    obtain ⟨i, hfi, himem, hile⟩ :=
      checkOutOfRange_some sig.bitmap (afterReset loader s sig.epoch).committee.length hlen hbad
    refine ⟨⟨i, (afterReset loader s sig.epoch).committee.length,
      (afterReset loader s sig.epoch).currentEpoch, cp.sequenceNumber,
      afterReset loader s sig.epoch⟩, ?_, himem, hile, rfl, rfl, rfl, ?_⟩
    · unfold processCheckpoint
      rw [hsig]
      simp only [processSignedCheckpoint, hfi]
    · intro k st hst
      exact afterReset_counts loader s sig.epoch k st hst
  · intro hrange
    refine ⟨{ afterReset loader s sig.epoch with
        stats := recordSigners (afterReset loader s sig.epoch).stats sig.bitmap
          (afterReset loader s sig.epoch).committee }, ?_⟩
    unfold processCheckpoint
    rw [hsig]
    simp only [processSignedCheckpoint,
      checkOutOfRange_none sig.bitmap (afterReset loader s sig.epoch).committee.length hlen hrange]

/-- C2 witness: the fatal-path direction evaluated on a concrete state
(one validator, signer indices `[1]`, committee size 1). -/
theorem c2_out_of_range_fatal_witness :
    ∃ p, processCheckpoint cLoaderFail
        ⟨5, [vA], ⟨fun k => if k = "a" then some ⟨3, true⟩ else none, 7⟩⟩
        ⟨42, some ⟨5, [1]⟩⟩ = .error p ∧
      p.idx ∈ ([1] : List Nat) ∧
      (afterReset cLoaderFail
        ⟨5, [vA], ⟨fun k => if k = "a" then some ⟨3, true⟩ else none, 7⟩⟩
        5).committee.length ≤ p.idx ∧
      p.committeeSize =
        (afterReset cLoaderFail
          ⟨5, [vA], ⟨fun k => if k = "a" then some ⟨3, true⟩ else none, 7⟩⟩
          5).committee.length ∧
      p.epoch =
        (afterReset cLoaderFail
          ⟨5, [vA], ⟨fun k => if k = "a" then some ⟨3, true⟩ else none, 7⟩⟩
          5).currentEpoch ∧
      p.checkpointSeq = 42 ∧
      (∀ k st,
        (⟨fun k2 => if k2 = "a" then some ⟨3, true⟩ else none, 7⟩ :
          StatsManager).validatorStats k = some st →
        ((p.stateAtPanic.stats.validatorStats k).map (·.attestedCount)) =
          some st.attestedCount) :=
  (c2_out_of_range_fatal cLoaderFail
    ⟨5, [vA], ⟨fun k => if k = "a" then some ⟨3, true⟩ else none, 7⟩⟩
    ⟨42, some ⟨5, [1]⟩⟩ ⟨5, [1]⟩ rfl (by decide)).1 (by decide)

/-!  Claim C4: behaviour on committee-reload failure. -/

/-- C4 counterexample: the claim says a failed reload leaves
`currentEpoch` unchanged.  In the source, `p.currentEpoch =
checkpointEpochVal` is assigned before the load is attempted, so after
a failed reload for an epoch-6 event on an epoch-5 state the processor
holds epoch 6, not the old epoch 5. -/
theorem c4_counterexample :
    (match processCheckpoint cLoaderFail
        ⟨5, [vA], StatsManager.new.initializeCommitteeStats [vA]⟩
        ⟨100, some ⟨6, [0]⟩⟩ with
      | .ok s2 => s2.currentEpoch
      | .error _ => 0) = 6 ∧
      (⟨5, [vA], StatsManager.new.initializeCommitteeStats [vA]⟩ :
        ProcState).currentEpoch = 5 := by
  constructor
  · decide
  · decide

/-- C4 (amended): when an event with epoch greater than `currentEpoch`
arrives and the reload fails, the event is still processed against the
old committee (committee and counters untouched by the failure), but
`currentEpoch` has already been advanced to the event's epoch before
the load attempt and keeps that value; consequently the loader is not
consulted again for events at or below that epoch (processing is
loader-independent there), while a later event with a strictly greater
epoch does attempt the reload and, on success, installs the loaded
committee and its resolved epoch. -/
theorem c4_reload_failure (loader : CommitteeLoader) (s : ProcState)
    (cp : Checkpoint) (sig : SigData)
    (hsig : cp.signature = some sig)
    (hgt : s.currentEpoch < sig.epoch)
    (err : String) (herr : loader sig.epoch = .error err)
    (hlen : s.committee.length < UINT32_MOD)
    (hrange : ∀ b ∈ sig.bitmap, b < s.committee.length) :
    (processCheckpoint loader s cp =
      .ok ⟨sig.epoch, s.committee,
        recordSigners ((s.stats.incrementTotalCheckpointsWithSig).resetSignedCurrent
          s.committee) sig.bitmap s.committee⟩) ∧
    (∀ (t : ProcState) (cp2 : Checkpoint) (sig2 : SigData) (L1 L2 : CommitteeLoader),
      cp2.signature = some sig2 → sig2.epoch ≤ t.currentEpoch →
      processCheckpoint L1 t cp2 = processCheckpoint L2 t cp2) ∧
    (∀ (t : ProcState) (e : Nat) (c2 : List ValidatorInfo) (e3 : Nat)
      (L2 : CommitteeLoader),
      t.currentEpoch < e → L2 e = .ok (c2, e3) →
      (epochReload L2 t e).committee = c2 ∧ (epochReload L2 t e).currentEpoch = e3) := by
  refine ⟨?_, ?_, ?_⟩
  · have hAR : afterReload loader s sig.epoch =
        ⟨sig.epoch, s.committee, s.stats.incrementTotalCheckpointsWithSig⟩ := by
      unfold afterReload
      rw [epochReload_failure loader (afterIncrement s) sig.epoch hgt err herr]
      rfl
    have hs3 : afterReset loader s sig.epoch =
        ⟨sig.epoch, s.committee,
          (s.stats.incrementTotalCheckpointsWithSig).resetSignedCurrent s.committee⟩ := by
      unfold afterReset
      rw [hAR]
    unfold processCheckpoint
    rw [hsig]
    simp only [processSignedCheckpoint, hs3]
    rw [checkOutOfRange_none sig.bitmap s.committee.length hlen hrange]
  · intro t cp2 sig2 L1 L2 hsig2 hle
    unfold processCheckpoint
    rw [hsig2]
    have h12 : afterReset L1 t sig2.epoch = afterReset L2 t sig2.epoch := by
      unfold afterReset afterReload
      rw [epochReload_not_gt L1 (afterIncrement t) sig2.epoch hle,
        epochReload_not_gt L2 (afterIncrement t) sig2.epoch hle]
    simp only [processSignedCheckpoint, h12]
  · intro t e c2 e3 L2 hgt2 hok
    rw [epochReload_success L2 t e hgt2 c2 e3 hok]
    exact ⟨rfl, rfl⟩

/-- C4 witness: the failed-reload conclusion evaluated on a concrete
epoch-5 state receiving an epoch-6 event whose load fails. -/
theorem c4_reload_failure_witness :
    processCheckpoint cLoaderFail
        ⟨5, [vA], StatsManager.new.initializeCommitteeStats [vA]⟩
        ⟨100, some ⟨6, [0]⟩⟩ =
      .ok ⟨6, [vA],
        recordSigners
          (((StatsManager.new.initializeCommitteeStats
            [vA]).incrementTotalCheckpointsWithSig).resetSignedCurrent [vA])
          [0] [vA]⟩ :=
  (c4_reload_failure cLoaderFail
    ⟨5, [vA], StatsManager.new.initializeCommitteeStats [vA]⟩
    ⟨100, some ⟨6, [0]⟩⟩ ⟨6, [0]⟩ rfl (by decide) "committee load failed" rfl
    (by decide) (by decide)).1

/-!  Claim C1: one processing pass marks exactly the signers. -/

/-- C1: for a committee with pairwise-distinct identity keys and bitmap
indices below the uint32 boundary, an event of the current epoch whose
signer indices all lie in `0..len(committee)-1` updates each
ledger-present member to: flag and count bumped exactly when its bitmap
index is a member of the signer set, flag cleared and count untouched
otherwise; epoch and committee are unchanged. -/
theorem c1_pass_marks_exactly_signers (loader : CommitteeLoader) (s : ProcState)
    (cp : Checkpoint) (sig : SigData)
    (hsig : cp.signature = some sig)
    (hepoch : sig.epoch ≤ s.currentEpoch)
    (hlen : s.committee.length < UINT32_MOD)
    (hrange : ∀ b ∈ sig.bitmap, b < s.committee.length)
    (hnodup : (s.committee.map (·.suiAddress)).Nodup)
    (hidx : ∀ v ∈ s.committee, v.bitmapIndex < (UINT32_MOD : Int)) :
    ∃ s2, processCheckpoint loader s cp = .ok s2 ∧
      s2.committee = s.committee ∧ s2.currentEpoch = s.currentEpoch ∧
      ∀ v ∈ s.committee, ∀ st, s.stats.validatorStats v.suiAddress = some st →
        s2.stats.validatorStats v.suiAddress =
          some ⟨st.attestedCount +
              (if v.bitmapIndex ∈ sig.bitmap.map (fun n : Nat => (n : Int)) then 1 else 0),
            decide (v.bitmapIndex ∈ sig.bitmap.map (fun n : Nat => (n : Int)))⟩ := by
  have hAR : afterReload loader s sig.epoch = afterIncrement s := by
    unfold afterReload
    exact epochReload_not_gt loader (afterIncrement s) sig.epoch hepoch
  have hs3 : afterReset loader s sig.epoch =
      ⟨s.currentEpoch, s.committee,
        (s.stats.incrementTotalCheckpointsWithSig).resetSignedCurrent s.committee⟩ := by
    unfold afterReset
    rw [hAR]
    rfl
  refine ⟨⟨s.currentEpoch, s.committee,
    recordSigners ((s.stats.incrementTotalCheckpointsWithSig).resetSignedCurrent s.committee)
      sig.bitmap s.committee⟩, ?_, rfl, rfl, ?_⟩
  · unfold processCheckpoint
    rw [hsig]
    simp only [processSignedCheckpoint, hs3]
    rw [checkOutOfRange_none sig.bitmap s.committee.length hlen hrange]
  · intro v hv st hst
    dsimp only
    rw [recordSigners_eq_keyFold, keyFold_lookup_mem _ s.committee _ v hnodup hv]
    rw [resetSignedCurrent_lookup, if_pos (List.mem_map_of_mem (·.suiAddress) hv)]
    rw [incrementTotal_lookup, hst]
    cases hS : IsValidatorSigned sig.bitmap v.bitmapIndex with
    | false =>
        have hmem : v.bitmapIndex ∉ sig.bitmap.map (fun n : Nat => (n : Int)) := by
          intro hm
          rcases lt_or_le v.bitmapIndex 0 with hneg | h0
          · obtain ⟨b, hb, hbe⟩ := List.mem_map.mp hm
            omega
          · have hcontra :=
              (isValidatorSigned_eq_mem sig.bitmap v.bitmapIndex h0 (hidx v hv)).mpr hm
            rw [hS] at hcontra
            cases hcontra
        simp [hmem]
    | true =>
        have hmem : v.bitmapIndex ∈ sig.bitmap.map (fun n : Nat => (n : Int)) := by
          rcases lt_or_le v.bitmapIndex 0 with hneg | h0
          · rw [isValidatorSigned_neg sig.bitmap v.bitmapIndex hneg] at hS
            cases hS
          · exact (isValidatorSigned_eq_mem sig.bitmap v.bitmapIndex h0 (hidx v hv)).mp hS
        simp [hmem]

/-- A second concrete committee member used by witnesses. -/
def vB : ValidatorInfo :=
  { name := "B", suiAddress := "b", protocolPubkeyBytes := "pkB"
    bitmapIndex := 1, votingPower := 50 }

/-- C1 witness: spec scenario A on a two-member committee with signer
set `[0]`: member at index 0 ends at count 1, flag set; member at
index 1 ends at count 0, flag clear. -/
theorem c1_pass_marks_exactly_signers_witness :
    (match processCheckpoint cLoaderFail
        ⟨5, [vA, vB], StatsManager.new.initializeCommitteeStats [vA, vB]⟩
        ⟨200, some ⟨5, [0]⟩⟩ with
      | .ok s2 => (s2.stats.validatorStats "a", s2.stats.validatorStats "b")
      | .error _ => (none, none)) = (some ⟨0 + 1, true⟩, some ⟨0 + 0, false⟩) := by
  obtain ⟨s2, hrun, hcom, hep, hall⟩ :=
    c1_pass_marks_exactly_signers cLoaderFail
      ⟨5, [vA, vB], StatsManager.new.initializeCommitteeStats [vA, vB]⟩
      ⟨200, some ⟨5, [0]⟩⟩ ⟨5, [0]⟩ rfl (by decide) (by decide) (by decide)
      (by decide) (by decide)
  have hmemA : vA.bitmapIndex ∈ ([0] : List Nat).map (fun n : Nat => (n : Int)) := by decide
  have hmemB : vB.bitmapIndex ∉ ([0] : List Nat).map (fun n : Nat => (n : Int)) := by decide
  have ha := hall vA (by decide) ⟨0, false⟩ (by decide)
  have hb := hall vB (by decide) ⟨0, false⟩ (by decide)
  rw [if_pos hmemA, decide_eq_true hmemA] at ha
  rw [if_neg hmemB, decide_eq_false hmemB] at hb
  rw [hrun]
  dsimp only
  rw [show s2.stats.validatorStats "a" = some ⟨0 + 1, true⟩ from ha,
    show s2.stats.validatorStats "b" = some ⟨0 + 0, false⟩ from hb]

/-!  Claim C3: counter monotonicity across arbitrary ledger operations. -/

/-- The ledger operations of the spec contract — initialize, reset,
record, increment-total — plus whole checkpoint iterations, which
include the committee reloads. -/
inductive LedgerOp where
  | initOp (committee : List ValidatorInfo) : LedgerOp
  | resetOp (committee : List ValidatorInfo) : LedgerOp
  | recordOp (suiAddress : String) : LedgerOp
  | incTotalOp : LedgerOp
  | checkpointOp (loader : CommitteeLoader) (cp : Checkpoint) : LedgerOp

/-- Apply one ledger operation to the processor state. -/
def applyLedgerOp (s : ProcState) : LedgerOp → ProcState
  | .initOp c => { s with stats := s.stats.initializeCommitteeStats c }
  | .resetOp c => { s with stats := s.stats.resetSignedCurrent c }
  | .recordOp k => { s with stats := s.stats.updateValidatorSigned k }
  | .incTotalOp => { s with stats := s.stats.incrementTotalCheckpointsWithSig }
  | .checkpointOp loader cp => exceptState (processCheckpoint loader s cp)

/-- Every single ledger operation is monotone on present counters. -/
theorem applyLedgerOp_statsLe (s : ProcState) (op : LedgerOp) :
    StatsLe s.stats (applyLedgerOp s op).stats := by
  cases op with
  | initOp c => exact initializeCommitteeStats_statsLe s.stats c
  | resetOp c => exact resetSignedCurrent_statsLe s.stats c
  | recordOp k => exact updateValidatorSigned_statsLe s.stats k
  | incTotalOp => exact statsLe_of_lookup_eq (fun k => rfl)
  | checkpointOp loader cp => exact processCheckpoint_statsLe loader s cp

/-- Any sequence of ledger operations is monotone on present counters. -/
theorem ledgerOps_statsLe (ops : List LedgerOp) (s : ProcState) :
    StatsLe s.stats (ops.foldl applyLedgerOp s).stats := by
  induction ops generalizing s with
  | nil => exact statsLe_refl _
  | cons op rest ih =>
      rw [List.foldl_cons]
      exact statsLe_trans (applyLedgerOp_statsLe s op) (ih _)

/-- C3: across any sequence of ledger operations (initialize, reset,
record, increment-total, and whole checkpoint iterations with their
reloads), the attested count stored for a present key never decreases;
and initialize leaves present entries untouched, inserts a zero counter
for exactly the committee members not already present, and leaves every
other key absent. -/
theorem c3_attested_count_monotone (ops : List LedgerOp) (s : ProcState)
    (k : String) (st : ValidatorStats)
    (hpresent : s.stats.validatorStats k = some st) :
    (∃ st2, (ops.foldl applyLedgerOp s).stats.validatorStats k = some st2 ∧
        st.attestedCount ≤ st2.attestedCount) ∧
      (∀ (sm : StatsManager) (c : List ValidatorInfo) (k2 : String),
        (sm.initializeCommitteeStats c).validatorStats k2 =
          match sm.validatorStats k2 with
          | some st3 => some st3
          | none => if k2 ∈ c.map (·.suiAddress) then some ⟨0, false⟩ else none) :=
  ⟨ledgerOps_statsLe ops s k st hpresent,
   fun sm c k2 => initializeCommitteeStats_lookup sm c k2⟩

/-- C3 witness: a concrete operation sequence (reset, record, total
increment, a reload-style initialize, and a full checkpoint iteration)
starting from a key at count 2; the count never drops below 2, and
initialize on a fresh manager inserts the zero counter. -/
theorem c3_attested_count_monotone_witness :
    (∃ st2,
      (([LedgerOp.resetOp [vA], LedgerOp.recordOp "a", LedgerOp.incTotalOp,
          LedgerOp.initOp [vA, vB],
          LedgerOp.checkpointOp cLoaderFail ⟨7, some ⟨5, [0]⟩⟩].foldl applyLedgerOp
        ⟨5, [vA], ⟨fun k => if k = "a" then some ⟨2, true⟩ else none, 2⟩⟩).stats.validatorStats
          "a" = some st2 ∧ 2 ≤ st2.attestedCount)) ∧
      ((StatsManager.new.initializeCommitteeStats [vA]).validatorStats "a" =
        match StatsManager.new.validatorStats "a" with
        | some st3 => some st3
        | none => if "a" ∈ [vA].map (·.suiAddress) then some ⟨0, false⟩ else none) :=
  (fun h => ⟨h.1, h.2 StatsManager.new [vA] "a"⟩)
    (c3_attested_count_monotone
      [LedgerOp.resetOp [vA], LedgerOp.recordOp "a", LedgerOp.incTotalOp,
        LedgerOp.initOp [vA, vB],
        LedgerOp.checkpointOp cLoaderFail ⟨7, some ⟨5, [0]⟩⟩]
      ⟨5, [vA], ⟨fun k => if k = "a" then some ⟨2, true⟩ else none, 2⟩⟩
      "a" ⟨2, true⟩ (by decide))

/-!  Claim C10: attested counts never exceed the observed total. -/

/-- A loader every successful result of which carries pairwise-distinct
identity keys. -/
def GoodLoader (loader : CommitteeLoader) : Prop :=
  ∀ e c e2, loader e = .ok (c, e2) → (c.map (·.suiAddress)).Nodup

/-- The ledger invariant: every present attested count is bounded by
the shared total of signature-carrying checkpoints. -/
def LedgerInvariant (s : ProcState) : Prop :=
  ∀ k st, s.stats.validatorStats k = some st →
    st.attestedCount ≤ s.stats.totalCheckpointsWithSig

/-- The committee held by the processor has pairwise-distinct keys. -/
def CommitteeNodup (s : ProcState) : Prop :=
  (s.committee.map (·.suiAddress)).Nodup

/-- Startup state (per main): a fresh StatsManager initialized with the
initial committee, before the processing loop starts. -/
def initialProcState (initialEpoch : Nat)
    (initialCommittee : List ValidatorInfo) : ProcState :=
  { currentEpoch := initialEpoch
    committee := initialCommittee
    stats := StatsManager.new.initializeCommitteeStats initialCommittee }

/-- One processor step as a total function on states (at the fatal path
the state at the panic is kept). -/
def processStep (loader : CommitteeLoader) (s : ProcState) (cp : Checkpoint) : ProcState :=
  exceptState (processCheckpoint loader s cp)

/-- Through the total increment and the reload, every present counter
is still bounded by the pre-event total, the shared total is the old
one plus one, and distinctness of committee keys is preserved. -/
theorem afterReload_bound (loader : CommitteeLoader) (hL : GoodLoader loader)
    (s : ProcState) (e : Nat) (hInv : LedgerInvariant s) :
    (∀ k st, (afterReload loader s e).stats.validatorStats k = some st →
        st.attestedCount ≤ s.stats.totalCheckpointsWithSig) ∧
      (afterReload loader s e).stats.totalCheckpointsWithSig =
        s.stats.totalCheckpointsWithSig + 1 ∧
      (CommitteeNodup s → CommitteeNodup (afterReload loader s e)) := by
  unfold afterReload
  unfold epochReload
  by_cases hgt : (afterIncrement s).currentEpoch < e
  · rw [if_pos hgt]
    cases hle : loader e with
    | error err =>
        exact ⟨fun k st h => hInv k st h, rfl, fun h => h⟩
    | ok p =>
        cases p with
        | mk c e2 =>
            refine ⟨?_, ?_, ?_⟩
            · intro k st h
              rw [initializeCommitteeStats_lookup] at h
              cases hsk : (afterIncrement s).stats.validatorStats k with
              | some st0 =>
                  rw [hsk] at h
                  cases h
                  exact hInv k st hsk
              | none =>
                  rw [hsk] at h
                  by_cases hmem : k ∈ c.map (·.suiAddress)
                  · rw [if_pos hmem] at h
                    cases h
                    exact Nat.zero_le _
                  · rw [if_neg hmem] at h
                    cases h
            · exact initializeCommitteeStats_total _ c
            · intro _
              exact hL e c e2 hle
  · rw [if_neg hgt]
    exact ⟨fun k st h => hInv k st h, rfl, fun h => h⟩

/-- Through the reset as well, every present counter is still bounded
by the pre-event total. -/
theorem afterReset_bound (loader : CommitteeLoader) (hL : GoodLoader loader)
    (s : ProcState) (e : Nat) (hInv : LedgerInvariant s) :
    (∀ k st, (afterReset loader s e).stats.validatorStats k = some st →
        st.attestedCount ≤ s.stats.totalCheckpointsWithSig) ∧
      (afterReset loader s e).stats.totalCheckpointsWithSig =
        s.stats.totalCheckpointsWithSig + 1 ∧
      (CommitteeNodup s →
        (((afterReset loader s e).committee).map (·.suiAddress)).Nodup) := by
  obtain ⟨hbound, htot, hnd⟩ := afterReload_bound loader hL s e hInv
  refine ⟨?_, ?_, ?_⟩
  · intro k st h
    unfold afterReset at h
    dsimp only at h
    rw [resetSignedCurrent_lookup] at h
    by_cases hmem : k ∈ ((afterReload loader s e).committee).map (·.suiAddress)
    · rw [if_pos hmem] at h
      cases hsk : (afterReload loader s e).stats.validatorStats k with
      | some st0 =>
          rw [hsk] at h
          cases h
          exact hbound k st0 hsk
      | none =>
          rw [hsk] at h
          cases h
    · rw [if_neg hmem] at h
      exact hbound k st h
  · unfold afterReset
    dsimp only
    rw [resetSignedCurrent_total]
    exact htot
  · intro h
    exact hnd h

/-- One signed iteration preserves the ledger invariant and committee
distinctness, at the normal exit and at the fatal path alike. -/
theorem processSignedCheckpoint_invariant (loader : CommitteeLoader)
    (hL : GoodLoader loader) (s : ProcState) (cp : Checkpoint) (sig : SigData)
    (hInv : LedgerInvariant s) (hNd : CommitteeNodup s) :
    LedgerInvariant (exceptState (processSignedCheckpoint loader s cp sig)) ∧
      CommitteeNodup (exceptState (processSignedCheckpoint loader s cp sig)) := by
  obtain ⟨hbound, htot, hnd⟩ := afterReset_bound loader hL s sig.epoch hInv
  have hndr := hnd hNd
  simp only [processSignedCheckpoint]
  cases hf : checkOutOfRange sig.bitmap (afterReset loader s sig.epoch).committee.length with
  | some badIdx =>
      simp only [exceptState]
      constructor
      · intro k st h
        rw [htot]
        exact Nat.le_succ_of_le (hbound k st h)
      · exact hndr
  | none =>
      simp only [exceptState]
      constructor
      · intro k st h
        dsimp only at h
        rw [recordSigners_eq_keyFold] at h
        show st.attestedCount ≤
          (recordSigners (afterReset loader s sig.epoch).stats sig.bitmap
            (afterReset loader s sig.epoch).committee).totalCheckpointsWithSig
        rw [recordSigners_total, htot]
        by_cases hmem : k ∈ ((afterReset loader s sig.epoch).committee).map (·.suiAddress)
        · obtain ⟨v, hv, haddr⟩ := List.mem_map.mp hmem
          rw [← haddr] at h
          rw [keyFold_lookup_mem _ _ _ v hndr hv] at h
          cases hsk : (afterReset loader s sig.epoch).stats.validatorStats v.suiAddress with
          | some st0 =>
              rw [hsk] at h
              have hb0 : st0.attestedCount ≤ s.stats.totalCheckpointsWithSig := by
                apply hbound
                exact hsk
              by_cases hs2 : IsValidatorSigned sig.bitmap v.bitmapIndex
              · rw [if_pos hs2] at h
                cases h
                exact Nat.succ_le_succ hb0
              · rw [if_neg hs2] at h
                cases h
                exact Nat.le_succ_of_le hb0
          | none =>
              rw [hsk] at h
              by_cases hs2 : IsValidatorSigned sig.bitmap v.bitmapIndex
              · rw [if_pos hs2] at h
                cases h
              · rw [if_neg hs2] at h
                cases h
        · rw [keyFold_lookup_notMem _ _ _ k
            (fun u hu hequ => hmem (hequ ▸ List.mem_map_of_mem (·.suiAddress) hu))] at h
          exact Nat.le_succ_of_le (hbound k st h)
      · exact hndr

/-- One full step preserves the invariant and distinctness. -/
theorem processStep_invariant (loader : CommitteeLoader) (hL : GoodLoader loader)
    (s : ProcState) (cp : Checkpoint)
    (hInv : LedgerInvariant s) (hNd : CommitteeNodup s) :
    LedgerInvariant (processStep loader s cp) ∧
      CommitteeNodup (processStep loader s cp) := by
  unfold processStep processCheckpoint
  cases cp.signature with
  | none => exact ⟨hInv, hNd⟩
  | some sig => exact processSignedCheckpoint_invariant loader hL s cp sig hInv hNd

/-- C10: with every installed committee carrying pairwise-distinct
identity keys, after any sequence of processed events starting from the
initialized startup state, every present attested count is bounded by
`totalCheckpointsWithSig` — a validator's uptime fraction never exceeds
100%. -/
theorem c10_attested_le_total (loader : CommitteeLoader) (hL : GoodLoader loader)
    (initialEpoch : Nat) (initialCommittee : List ValidatorInfo)
    (hNd : (initialCommittee.map (·.suiAddress)).Nodup)
    (events : List Checkpoint) :
    LedgerInvariant
      (events.foldl (processStep loader) (initialProcState initialEpoch initialCommittee)) := by
  have hstart : LedgerInvariant (initialProcState initialEpoch initialCommittee) := by
    intro k st h
    unfold initialProcState at h
    dsimp only at h
    rw [initializeCommitteeStats_lookup] at h
    cases hsk : StatsManager.new.validatorStats k with
    | some st0 => cases hsk
    | none =>
        rw [hsk] at h
        by_cases hmem : k ∈ initialCommittee.map (·.suiAddress)
        · rw [if_pos hmem] at h
          cases h
          exact Nat.zero_le _
        · rw [if_neg hmem] at h
          cases h
  have hstartNd : CommitteeNodup (initialProcState initialEpoch initialCommittee) := hNd
  have hgen : ∀ (evs : List Checkpoint) (t : ProcState),
      LedgerInvariant t → CommitteeNodup t →
      LedgerInvariant (evs.foldl (processStep loader) t) := by
    intro evs
    induction evs with
    | nil => intro t hI _; exact hI
    | cons ev rest ih =>
        intro t hI hN
        rw [List.foldl_cons]
        obtain ⟨hI2, hN2⟩ := processStep_invariant loader hL t ev hI hN
        exact ih _ hI2 hN2
  exact hgen events _ hstart hstartNd

/-- C10 witness: one concrete event on a one-member committee; the
member's count 1 is bounded by the total 1. -/
theorem c10_attested_le_total_witness :
    ([vA].map (·.suiAddress)).Nodup ∧
      (1 : Nat) ≤
        (([⟨10, some ⟨5, [0]⟩⟩] : List Checkpoint).foldl (processStep cLoaderFail)
          (initialProcState 5 [vA])).stats.totalCheckpointsWithSig :=
  ⟨by decide,
   c10_attested_le_total cLoaderFail (fun e c e2 h => Except.noConfusion h) 5 [vA]
     (by decide) [⟨10, some ⟨5, [0]⟩⟩] "a" ⟨1, true⟩ (by decide)⟩

/-!  Claims C5 and C6: the Committee Reconciler. -/

/-- The join output has one record per committee key. -/
theorem joinCommitteeAux_length (m : String → Option ActiveValidatorJSON)
    (i : Nat) (keys : List String) :
    (joinCommitteeAux m i keys).length = keys.length := by
  induction keys generalizing i with
  | nil => rfl
  | cons k rest ih =>
      unfold joinCommitteeAux
      rw [List.length_cons, List.length_cons, ih]

/-- Position j of the join output is the record built from key j with
bitmap index (start + j). -/
theorem joinCommitteeAux_get? (m : String → Option ActiveValidatorJSON) :
    ∀ (keys : List String) (i j : Nat),
      (joinCommitteeAux m i keys).get? j =
        (keys.get? j).map (fun k => joinRecord m (i + j) k) := by
  intro keys
  induction keys with
  | nil => intro i j; cases j <;> rfl
  | cons k rest ih =>
      intro i j
      cases j with
      | zero => rfl
      | succ j2 =>
          unfold joinCommitteeAux
          rw [List.get?_cons_succ, List.get?_cons_succ, ih (i + 1) j2]
          have harith : i + 1 + j2 = i + (j2 + 1) := by omega
          rw [harith]

/-- When every committee entry carries a non-empty public key, the key
extraction succeeds with exactly the first element of each entry. -/
theorem extractPubKeys_ok (l : List (List String))
    (h : ∀ vd ∈ l, vd.headD "" ≠ "") :
    extractPubKeys l = .ok (l.map (·.headD "")) := by
  induction l with
  | nil => rfl
  | cons vd rest ih =>
      cases vd with
      | nil => exact absurd rfl (h [] (List.mem_cons_self _ _))
      | cons k tl =>
          have hk : k ≠ "" := h (k :: tl) (List.mem_cons_self _ _)
          simp only [extractPubKeys]
          rw [if_neg hk, ih (fun u hu => h u (List.mem_cons_of_mem _ hu))]
          rfl

/-- When some committee entry is empty or has an empty first element,
the key extraction fails. -/
theorem extractPubKeys_error_of (l : List (List String))
    (h : ∃ vd ∈ l, vd.headD "" = "") :
    ∃ e, extractPubKeys l = .error e := by
  induction l with
  | nil =>
      obtain ⟨vd, hvd, _⟩ := h
      cases hvd
  | cons vd rest ih =>
      obtain ⟨u, hu, hue⟩ := h
      rcases List.mem_cons.mp hu with huv | hurest
      · subst huv
        cases u with
        | nil => exact ⟨_, rfl⟩
        | cons k tl =>
            have hk : k = "" := hue
            simp only [extractPubKeys]
            rw [if_pos hk]
            exact ⟨_, rfl⟩
      · obtain ⟨e, he⟩ := ih ⟨u, hurest, hue⟩
        cases vd with
        | nil => exact ⟨_, rfl⟩
        | cons k tl =>
            by_cases hk : k = ""
            · simp only [extractPubKeys]
              rw [if_pos hk]
              exact ⟨_, rfl⟩
            · simp only [extractPubKeys]
              rw [if_neg hk, he]
              exact ⟨e, rfl⟩

/-- C5: for a committee fetch of N entries each carrying a non-empty
public key (and successfully resolved epochs), the loader returns
exactly N records; position j carries bitmap index j and the j-th
fetched key, so the indices are exactly 0..N-1 in fetch order with no
duplicates; a key without matching metadata yields the deterministic
placeholder at its index rather than a dropped index; and the metadata
epoch (parsed but otherwise only compared for a warning) never causes a
failure. -/
theorem c5_load_committee_indices (targetEpoch : Nat)
    (pre : Except String SuiSystemStateResult)
    (ci : CommitteeInfoResultJSON) (m : SuiSystemStateResult)
    (actualEpoch : Nat) (qs : String)
    (hres : resolveTargetEpoch targetEpoch pre = .ok (actualEpoch, qs))
    (hciE : ci.epoch ≠ "") (pe : Nat) (hciP : parseUint64 ci.epoch = some pe)
    (hkeys : ∀ vd ∈ ci.validators, vd.headD "" ≠ "")
    (hmE : m.epoch ≠ "") (me : Nat) (hmP : parseUint64 m.epoch = some me) :
    ∃ committee,
      loadEpochValidatorData targetEpoch pre (.ok ci) (.ok m) =
          .ok (committee, actualEpoch) ∧
        committee.length = ci.validators.length ∧
        (∀ j, committee.get? j =
          ((ci.validators.map (·.headD "")).get? j).map
            (joinRecord (buildActiveValidatorsMap m.activeValidators) j)) ∧
        (∀ j r, committee.get? j = some r → r.bitmapIndex = j) ∧
        (∀ j k, (ci.validators.map (·.headD "")).get? j = some k →
          buildActiveValidatorsMap m.activeValidators k = none →
          committee.get? j = some (placeholderValidatorInfo k j)) := by
  have hget : ∀ j,
      (joinCommitteeAux (buildActiveValidatorsMap m.activeValidators) 0
        (ci.validators.map (·.headD ""))).get? j =
        ((ci.validators.map (·.headD "")).get? j).map
          (joinRecord (buildActiveValidatorsMap m.activeValidators) j) := by
    intro j
    rw [joinCommitteeAux_get? _ _ 0 j]
    have h0j : 0 + j = j := by omega
    rw [h0j]
  refine ⟨joinCommitteeAux (buildActiveValidatorsMap m.activeValidators) 0
    (ci.validators.map (·.headD "")), ?_, ?_, hget, ?_, ?_⟩
  · simp only [loadEpochValidatorData, hres, getCommitteeInfo, if_neg hciE, hciP,
      extractPubKeys_ok ci.validators hkeys, getLatestSuiSystemState, if_neg hmE, hmP]
  · rw [joinCommitteeAux_length, List.length_map]
  · intro j r h
    rw [hget j] at h
    cases hkj : (ci.validators.map (·.headD "")).get? j with
    | none =>
        rw [hkj] at h
        cases h
    | some k =>
        rw [hkj] at h
        cases h
        unfold joinRecord
        cases buildActiveValidatorsMap m.activeValidators k with
        | none => rfl
        | some meta => rfl
  · intro j k hkj hmiss
    rw [hget j, hkj]
    show some (joinRecord (buildActiveValidatorsMap m.activeValidators) j k) =
      some (placeholderValidatorInfo k j)
    unfold joinRecord
    rw [hmiss]

/-- C5 witness: a two-entry committee where the first key has metadata
and the second does not, and where the metadata epoch (6) differs from
the committee epoch (5): the load still succeeds, indices are 0 and 1
in fetch order, and index 1 is the placeholder. -/
theorem c5_load_committee_indices_witness :
    ∃ committee,
      loadEpochValidatorData 5 (.error "unused")
          (.ok ⟨"5", [["pk1"], ["pk2", "x"]]⟩)
          (.ok ⟨"6", [⟨"addr1", "Val One", "pk1"⟩]⟩) =
          .ok (committee, 5) ∧
        committee.length = ([["pk1"], ["pk2", "x"]] : List (List String)).length ∧
        (∀ j, committee.get? j =
          ((([["pk1"], ["pk2", "x"]] : List (List String)).map (·.headD "")).get? j).map
            (joinRecord (buildActiveValidatorsMap [⟨"addr1", "Val One", "pk1"⟩]) j)) ∧
        (∀ j r, committee.get? j = some r → r.bitmapIndex = j) ∧
        (∀ j k, ((([["pk1"], ["pk2", "x"]] : List (List String)).map (·.headD ""))).get? j = some k →
          buildActiveValidatorsMap [⟨"addr1", "Val One", "pk1"⟩] k = none →
          committee.get? j = some (placeholderValidatorInfo k j)) :=
  c5_load_committee_indices 5 (.error "unused") ⟨"5", [["pk1"], ["pk2", "x"]]⟩
    ⟨"6", [⟨"addr1", "Val One", "pk1"⟩]⟩ 5 (toString (5 : Nat)) rfl (by decide) 5 rfl
    (by decide) (by decide) 6 rfl

/-- A non-zero target epoch resolves to itself without any fetch. -/
theorem resolveTargetEpoch_nonzero (t : Nat) (pre : Except String SuiSystemStateResult)
    (ht : t ≠ 0) : resolveTargetEpoch t pre = .ok (t, toString t) := by
  unfold resolveTargetEpoch
  rw [if_neg ht]

/-- Target epoch zero with an empty pre-fetch epoch string fails. -/
theorem resolveTargetEpoch_zero_empty (pre : SuiSystemStateResult)
    (hpe : pre.epoch = "") :
    resolveTargetEpoch 0 (.ok pre) =
      .error ("error fetching system state (pre-fetch): epoch not found in latest system state response") := by
  simp [resolveTargetEpoch, getLatestSuiSystemState, hpe]

/-- Target epoch zero with an unparsable pre-fetch epoch string fails. -/
theorem resolveTargetEpoch_zero_parse_none (pre : SuiSystemStateResult)
    (hpe : pre.epoch ≠ "") (hp : parseUint64 pre.epoch = none) :
    resolveTargetEpoch 0 (.ok pre) =
      .error "error parsing epoch from pre-fetch system state response" := by
  simp [resolveTargetEpoch, getLatestSuiSystemState, hpe, hp]

/-- Target epoch zero with a parsable pre-fetch epoch string resolves
to the parsed value and that string. -/
theorem resolveTargetEpoch_zero_ok (pre : SuiSystemStateResult) (v : Nat)
    (hpe : pre.epoch ≠ "") (hp : parseUint64 pre.epoch = some v) :
    resolveTargetEpoch 0 (.ok pre) = .ok (v, pre.epoch) := by
  simp [resolveTargetEpoch, getLatestSuiSystemState, hpe, hp]

/-- An empty epoch string fails the committee-info validation. -/
theorem getCommitteeInfo_empty (ci : CommitteeInfoResultJSON) (hciE : ci.epoch = "") :
    getCommitteeInfo (.ok ci) =
      .error "epoch or validators not found in committee info response" := by
  simp [getCommitteeInfo, hciE]

/-- An unparsable epoch string fails the committee-info validation. -/
theorem getCommitteeInfo_parse_none (ci : CommitteeInfoResultJSON)
    (hciE : ci.epoch ≠ "") (hp : parseUint64 ci.epoch = none) :
    getCommitteeInfo (.ok ci) =
      .error "error parsing epoch from committee info response" := by
  simp [getCommitteeInfo, hciE, hp]

/-- A non-empty, parsable epoch string passes the committee-info
validation unchanged. -/
theorem getCommitteeInfo_ok (ci : CommitteeInfoResultJSON) (v : Nat)
    (hciE : ci.epoch ≠ "") (hp : parseUint64 ci.epoch = some v) :
    getCommitteeInfo (.ok ci) = .ok ci := by
  simp [getCommitteeInfo, hciE, hp]

/-- An empty epoch string fails the system-state validation. -/
theorem getLatestSuiSystemState_empty (m : SuiSystemStateResult) (hme : m.epoch = "") :
    getLatestSuiSystemState (.ok m) =
      .error "epoch not found in latest system state response" := by
  simp [getLatestSuiSystemState, hme]

/-- A non-empty epoch string passes the system-state validation. -/
theorem getLatestSuiSystemState_ok (m : SuiSystemStateResult) (hme : m.epoch ≠ "") :
    getLatestSuiSystemState (.ok m) = .ok m := by
  simp [getLatestSuiSystemState, hme]

/-- Epoch resolution fails exactly when the target is zero and the
pre-fetched epoch string is empty or unparsable. -/
theorem resolveTargetEpoch_error_iff (t : Nat) (pre : SuiSystemStateResult) :
    (∃ e, resolveTargetEpoch t (.ok pre) = .error e) ↔
      (t = 0 ∧ (pre.epoch = "" ∨ parseUint64 pre.epoch = none)) := by
  constructor
  · rintro ⟨e, he⟩
    by_cases ht : t = 0
    · subst ht
      by_cases hpe : pre.epoch = ""
      · exact ⟨rfl, Or.inl hpe⟩
      · cases hp : parseUint64 pre.epoch with
        | none => exact ⟨rfl, Or.inr rfl⟩
        | some v =>
            rw [resolveTargetEpoch_zero_ok pre v hpe hp] at he
            cases he
    · rw [resolveTargetEpoch_nonzero t _ ht] at he
      cases he
  · rintro ⟨ht, hor⟩
    subst ht
    by_cases hpe : pre.epoch = ""
    · exact ⟨_, resolveTargetEpoch_zero_empty pre hpe⟩
    · rcases hor with hpe2 | hp
      · exact absurd hpe2 hpe
      · exact ⟨_, resolveTargetEpoch_zero_parse_none pre hpe hp⟩

/-- When everything is well-formed, the loader succeeds. -/
theorem loadEpochValidatorData_ok_of_wellformed (t : Nat)
    (pre : SuiSystemStateResult) (ci : CommitteeInfoResultJSON)
    (m : SuiSystemStateResult)
    (hpre : t = 0 → pre.epoch ≠ "" ∧ ∃ v, parseUint64 pre.epoch = some v)
    (hciE : ci.epoch ≠ "") (hciP : ∃ v, parseUint64 ci.epoch = some v)
    (hkeys : ∀ vd ∈ ci.validators, vd.headD "" ≠ "")
    (hmE : m.epoch ≠ "") (hmP : ∃ v, parseUint64 m.epoch = some v) :
    ∃ r, loadEpochValidatorData t (.ok pre) (.ok ci) (.ok m) = .ok r := by
  obtain ⟨a, qs, hres⟩ : ∃ a qs, resolveTargetEpoch t (.ok pre) = .ok (a, qs) := by
    by_cases ht : t = 0
    · subst ht
      obtain ⟨hpe, v, hp⟩ := hpre rfl
      exact ⟨v, pre.epoch, resolveTargetEpoch_zero_ok pre v hpe hp⟩
    · exact ⟨t, toString t, resolveTargetEpoch_nonzero t _ ht⟩
  obtain ⟨cv, hciP⟩ := hciP
  obtain ⟨mv, hmP⟩ := hmP
  refine ⟨(joinCommitteeAux (buildActiveValidatorsMap m.activeValidators) 0
    (ci.validators.map (·.headD "")), a), ?_⟩
  simp only [loadEpochValidatorData, hres, getCommitteeInfo_ok ci cv hciE hciP,
    extractPubKeys_ok ci.validators hkeys, getLatestSuiSystemState_ok m hmE, hmP]

/-!  Claim C6: when the loader fails. -/

/-- C6 counterexample: the claim says an empty committee fetch yields
an error.  A committee-info response with a valid epoch string and an
empty validators list passes every check: the loader returns an empty
snapshot with no error. -/
theorem c6_counterexample :
    loadEpochValidatorData 5 (.error "unused")
        (.ok ⟨"5", []⟩) (.ok ⟨"5", []⟩) = .ok ([], 5) := rfl

/-- C6 (amended): with the three wire calls succeeding at the transport
level, the loader returns an error exactly when the epoch cannot be
determined (target zero with an empty or unparsable pre-fetch epoch;
an empty or unparsable committee-info epoch; an empty or unparsable
metadata epoch) or some committee entry is missing its public key; an
empty validators list with a valid epoch is NOT an error and yields an
empty snapshot. -/
theorem c6_load_error_iff (t : Nat) (pre : SuiSystemStateResult)
    (ci : CommitteeInfoResultJSON) (m : SuiSystemStateResult) :
    (∃ e, loadEpochValidatorData t (.ok pre) (.ok ci) (.ok m) = .error e) ↔
      ((t = 0 ∧ (pre.epoch = "" ∨ parseUint64 pre.epoch = none)) ∨
        ci.epoch = "" ∨ parseUint64 ci.epoch = none ∨
        (∃ vd ∈ ci.validators, vd.headD "" = "") ∨
        m.epoch = "" ∨ parseUint64 m.epoch = none) := by
  constructor
  · rintro ⟨e, he⟩
    by_contra hR
    push_neg at hR
    obtain ⟨h1, h2, h3, h4, h5, h6⟩ := hR
    obtain ⟨r, hr⟩ := loadEpochValidatorData_ok_of_wellformed t pre ci m
      (fun ht => ⟨(h1 ht).1, Option.ne_none_iff_exists'.mp (h1 ht).2⟩)
      h2 (Option.ne_none_iff_exists'.mp h3) h4 h5 (Option.ne_none_iff_exists'.mp h6)
    rw [hr] at he
    cases he
  · intro h
    rcases h with ⟨ht, hor⟩ | h2 | h3 | h4 | h5 | h6
    · obtain ⟨e, he⟩ := (resolveTargetEpoch_error_iff t pre).mpr ⟨ht, hor⟩
      exact ⟨e, by simp only [loadEpochValidatorData, he]⟩
    · cases hres : resolveTargetEpoch t (.ok pre) with
      | error e => exact ⟨e, by simp only [loadEpochValidatorData, hres]⟩
      | ok p =>
          obtain ⟨a, qs⟩ := p
          exact ⟨_, by simp only [loadEpochValidatorData, hres, getCommitteeInfo_empty ci h2]; rfl⟩
    · cases hres : resolveTargetEpoch t (.ok pre) with
      | error e => exact ⟨e, by simp only [loadEpochValidatorData, hres]⟩
      | ok p =>
          obtain ⟨a, qs⟩ := p
          by_cases h2 : ci.epoch = ""
          · exact ⟨_, by simp only [loadEpochValidatorData, hres, getCommitteeInfo_empty ci h2]; rfl⟩
          · exact ⟨_, by simp only [loadEpochValidatorData, hres,
              getCommitteeInfo_parse_none ci h2 h3]; rfl⟩
    · cases hres : resolveTargetEpoch t (.ok pre) with
      | error e => exact ⟨e, by simp only [loadEpochValidatorData, hres]⟩
      | ok p =>
          obtain ⟨a, qs⟩ := p
          by_cases h2 : ci.epoch = ""
          · exact ⟨_, by simp only [loadEpochValidatorData, hres, getCommitteeInfo_empty ci h2]; rfl⟩
          · cases hp : parseUint64 ci.epoch with
            | none =>
                exact ⟨_, by simp only [loadEpochValidatorData, hres,
                  getCommitteeInfo_parse_none ci h2 hp]; rfl⟩
            | some v =>
                obtain ⟨e, he⟩ := extractPubKeys_error_of ci.validators h4
                exact ⟨e, by simp only [loadEpochValidatorData, hres,
                  getCommitteeInfo_ok ci v h2 hp, he]⟩
    · cases hres : resolveTargetEpoch t (.ok pre) with
      | error e => exact ⟨e, by simp only [loadEpochValidatorData, hres]⟩
      | ok p =>
          obtain ⟨a, qs⟩ := p
          cases hci : getCommitteeInfo (.ok ci) with
          | error e => exact ⟨_, by simp only [loadEpochValidatorData, hres, hci]; rfl⟩
          | ok ci2 =>
              cases hext : extractPubKeys ci2.validators with
              | error e => exact ⟨e, by simp only [loadEpochValidatorData, hres, hci, hext]⟩
              | ok keys =>
                  exact ⟨_, by simp only [loadEpochValidatorData, hres, hci, hext,
                    getLatestSuiSystemState_empty m h5]; rfl⟩
    · cases hres : resolveTargetEpoch t (.ok pre) with
      | error e => exact ⟨e, by simp only [loadEpochValidatorData, hres]⟩
      | ok p =>
          obtain ⟨a, qs⟩ := p
          cases hci : getCommitteeInfo (.ok ci) with
          | error e => exact ⟨_, by simp only [loadEpochValidatorData, hres, hci]; rfl⟩
          | ok ci2 =>
              cases hext : extractPubKeys ci2.validators with
              | error e => exact ⟨e, by simp only [loadEpochValidatorData, hres, hci, hext]⟩
              | ok keys =>
                  by_cases hme : m.epoch = ""
                  · exact ⟨_, by simp only [loadEpochValidatorData, hres, hci, hext,
                      getLatestSuiSystemState_empty m hme]; rfl⟩
                  · exact ⟨_, by simp only [loadEpochValidatorData, hres, hci, hext,
                      getLatestSuiSystemState_ok m hme, h6]; rfl⟩

/-!  Claim C8: stream resilience error classification. -/

/-- C8: a receive failure terminates the subscriber exactly when the
caller's context has fired or the gRPC status is Canceled; EOF, the
transient codes Internal and Unavailable, and any other error all
classify as resubscribe; a terminated receive loop ends the subscriber
immediately — the output channel is closed and no later attempt is
consumed — while a backoff exit leads to the next subscription attempt
(the fixed delay is not modelled as time). -/
theorem c8_stream_resilience (ctxErr : Bool) (k : RecvErrKind)
    (attempt : List RecvOutcome) (rest : List (List RecvOutcome))
    (es : List Checkpoint) :
    (classifyRecvFailure ctxErr k = .terminate ↔
      (ctxErr = true ∨ k = .grpcStatus codeCanceled)) ∧
    (classifyRecvFailure false .eof = .resubscribe ∧
      classifyRecvFailure false (.grpcStatus codeInternal) = .resubscribe ∧
      classifyRecvFailure false (.grpcStatus codeUnavailable) = .resubscribe ∧
      classifyRecvFailure false .nonGrpc = .resubscribe) ∧
    (runRecvLoop attempt = (es, .terminated) →
      runSubscriber (attempt :: rest) = ⟨es, true⟩) ∧
    (runRecvLoop attempt = (es, .backoff) →
      runSubscriber (attempt :: rest) =
        ⟨es ++ (runSubscriber rest).delivered, (runSubscriber rest).channelClosed⟩) := by
  refine ⟨?_, ⟨rfl, rfl, rfl, rfl⟩, ?_, ?_⟩
  · cases ctxErr with
    | true => simp [classifyRecvFailure]
    | false =>
        cases k with
        | eof => simp [classifyRecvFailure]
        | nonGrpc => simp [classifyRecvFailure]
        | grpcStatus c =>
            by_cases hc : c = codeCanceled
            · simp [classifyRecvFailure, hc]
            · simp [classifyRecvFailure, hc, ite_self]
  · intro h
    unfold runSubscriber
    rw [h]
  · intro h
    rw [runSubscriber, h]

/-- C8 witness: a Canceled status after one delivered checkpoint
terminates with the channel closed and the next attempt unconsumed; an
EOF resubscribes into the next attempt. -/
theorem c8_stream_resilience_witness :
    runSubscriber ([RecvOutcome.item false (some ⟨1, none⟩),
        RecvOutcome.failure false (RecvErrKind.grpcStatus codeCanceled)] ::
      [[RecvOutcome.item false (some ⟨2, none⟩)]]) =
        ⟨[⟨1, none⟩], true⟩ ∧
      runSubscriber ([RecvOutcome.failure false RecvErrKind.eof] ::
        [[RecvOutcome.item false (some ⟨2, none⟩)]]) =
          ⟨[] ++ (runSubscriber [[RecvOutcome.item false (some ⟨2, none⟩)]]).delivered,
            (runSubscriber [[RecvOutcome.item false (some ⟨2, none⟩)]]).channelClosed⟩ :=
  ⟨(c8_stream_resilience false RecvErrKind.eof
      [RecvOutcome.item false (some ⟨1, none⟩),
        RecvOutcome.failure false (RecvErrKind.grpcStatus codeCanceled)]
      [[RecvOutcome.item false (some ⟨2, none⟩)]] [⟨1, none⟩]).2.2.1 (by decide),
   (c8_stream_resilience false RecvErrKind.eof
      [RecvOutcome.failure false RecvErrKind.eof]
      [[RecvOutcome.item false (some ⟨2, none⟩)]] []).2.2.2 (by decide)⟩
